import Mathlib

set_option maxRecDepth 10000

/-!
Shallow embedding of the data-transformation pipeline of the TRUCCO analytics
dashboard (source files dash_app.py and dashboard_dash.py): the spreadsheet
loader with its type inference, the sales preprocessor with its derived
columns, the returns and price-bucket aggregates, the size comparator and the
cost join of the dashboard content builder.

A pandas DataFrame is modelled column-major: a table is an ordered list of
named columns, and a cell is a tagged value (missing marker, rational number,
string, boolean or parsed date).  Machine floats of the source are modelled as
exact rationals; every threshold comparison of the source that this file
reasons about is exact at the inputs considered.
-/

/-- A parsed calendar date, the model of a pandas Timestamp cell. -/
structure PDate where
  year : Int
  month : Nat
  day : Nat
deriving DecidableEq, Repr

/-- One cell of a data frame.  `na` models NaN / NaT / pd.NA. -/
inductive Val where
  | na : Val
  | num : ℚ → Val
  | str : String → Val
  | bool : Bool → Val
  | date : PDate → Val
deriving DecidableEq, Repr

/-- A named column of a data frame. -/
structure Col where
  name : String
  cells : List Val
deriving DecidableEq, Repr

/-- A data frame: an ordered list of named columns. -/
abbrev Table := List Col

/-- Membership test of a column name, the model of `n in df.columns`. -/
def hasCol : Table → String → Bool
  | [], _ => false
  | c :: t, n => c.name == n || hasCol t n

/-- Column selection `df[n]` (first column of that name); the empty list when
the name is absent. -/
def getCol : Table → String → List Val
  | [], _ => []
  | c :: t, n => if c.name == n then c.cells else getCol t n

/-- Replacement of every column named `n` by fresh cells. -/
def replaceCol : Table → String → List Val → Table
  | [], _, _ => []
  | c :: t, n, cs => (if c.name == n then ⟨n, cs⟩ else c) :: replaceCol t n cs

/-- Column assignment `df[n] = cs`: replaces an existing column in place,
otherwise appends a new column at the end, as pandas does. -/
def setCol (t : Table) (n : String) (cs : List Val) : Table :=
  if hasCol t n then replaceCol t n cs
  else t ++ [⟨n, cs⟩]

/-- Number of rows, read off the first column as in a rectangular frame. -/
def nrows (t : Table) : Nat :=
  match t with
  | [] => 0
  | c :: _ => c.cells.length

/-- The model of `df.empty`: some axis has length zero. -/
def isEmptyT (t : Table) : Bool :=
  t.isEmpty || nrows t == 0

/- ### Basic lemmas about the column operations -/

theorem getCol_of_not_hasCol (t : Table) (n : String) (h : hasCol t n = false) :
    getCol t n = [] := by
  induction t with
  | nil => rfl
  | cons c t ih =>
    simp only [hasCol, Bool.or_eq_false_iff] at h
    simp [getCol, h.1, ih h.2]

theorem hasCol_replaceCol (t : Table) (n m : String) (cs : List Val) :
    hasCol (replaceCol t n cs) m = hasCol t m := by
  induction t with
  | nil => rfl
  | cons c t ih =>
    by_cases hc : c.name == n
    · have hcn : c.name = n := by simpa using hc
      simp [replaceCol, hasCol, hc, hcn, ih]
    · simp [replaceCol, hasCol, hc, ih]

theorem getCol_replaceCol_self (t : Table) (n : String) (cs : List Val)
    (h : hasCol t n = true) : getCol (replaceCol t n cs) n = cs := by
  induction t with
  | nil => simp [hasCol] at h
  | cons c t ih =>
    by_cases hc : c.name == n
    · simp [replaceCol, getCol, hc]
    · simp only [hasCol, hc, Bool.false_or] at h
      simp [replaceCol, getCol, hc, ih h]

theorem getCol_replaceCol_ne (t : Table) (n m : String) (cs : List Val)
    (hnm : m ≠ n) : getCol (replaceCol t n cs) m = getCol t m := by
  induction t with
  | nil => rfl
  | cons c t ih =>
    by_cases hc : c.name == n
    · have hcn : c.name = n := by simpa using hc
      have h1 : (n == m) = false := by
        simp only [beq_eq_false_iff_ne, ne_eq]
        exact fun hh => hnm hh.symm
      have h2 : (c.name == m) = false := by rw [hcn]; exact h1
      simp [replaceCol, getCol, hc, h1, h2, ih]
    · by_cases hcm : c.name == m
      · simp [replaceCol, getCol, hc, hcm]
      · simp [replaceCol, getCol, hc, hcm, ih]

theorem hasCol_append (a b : Table) (n : String) :
    hasCol (a ++ b) n = (hasCol a n || hasCol b n) := by
  induction a with
  | nil => simp [hasCol]
  | cons c a ih => simp [hasCol, ih, Bool.or_assoc]

theorem getCol_append (a b : Table) (n : String) :
    getCol (a ++ b) n = if hasCol a n then getCol a n else getCol b n := by
  induction a with
  | nil => simp [hasCol, getCol]
  | cons c a ih =>
    by_cases hc : c.name == n
    · simp [getCol, hasCol, hc]
    · simp [getCol, hasCol, hc, ih]

theorem hasCol_setCol_self (t : Table) (n : String) (cs : List Val) :
    hasCol (setCol t n cs) n = true := by
  unfold setCol
  by_cases h : hasCol t n
  · simp [h, hasCol_replaceCol]
  · simp [h, hasCol_append, hasCol]

theorem hasCol_setCol_ne (t : Table) (n m : String) (cs : List Val)
    (hnm : m ≠ n) : hasCol (setCol t n cs) m = hasCol t m := by
  unfold setCol
  by_cases h : hasCol t n
  · simp [h, hasCol_replaceCol]
  · have h1 : (n == m) = false := by
      simp only [beq_eq_false_iff_ne, ne_eq]
      exact fun hh => hnm hh.symm
    simp [h, hasCol_append, hasCol, h1]

theorem getCol_setCol_self (t : Table) (n : String) (cs : List Val) :
    getCol (setCol t n cs) n = cs := by
  unfold setCol
  by_cases h : hasCol t n
  · rw [if_pos h]
    exact getCol_replaceCol_self t n cs h
  · rw [if_neg h, getCol_append, if_neg h]
    simp [getCol]

theorem getCol_setCol_ne (t : Table) (n m : String) (cs : List Val)
    (hnm : m ≠ n) : getCol (setCol t n cs) m = getCol t m := by
  unfold setCol
  by_cases h : hasCol t n
  · rw [if_pos h]
    exact getCol_replaceCol_ne t n m cs hnm
  · rw [if_neg h, getCol_append]
    have h1 : (n == m) = false := by
      simp only [beq_eq_false_iff_ne, ne_eq]
      exact fun hh => hnm hh.symm
    by_cases hm : hasCol t m
    · simp [hm]
    · simp only [hm, Bool.false_eq_true, if_false]
      simp [getCol, h1, getCol_of_not_hasCol t m (by simpa using hm)]

/-- All columns named `n` hold exactly the cells `cs`, and the name exists. -/
def Uniform (t : Table) (n : String) (cs : List Val) : Prop :=
  hasCol t n = true ∧ ∀ c ∈ t, c.name = n → c.cells = cs

theorem replaceCol_of_uniform (t : Table) (n : String) (cs : List Val)
    (h : ∀ c ∈ t, c.name = n → c.cells = cs) : replaceCol t n cs = t := by
  induction t with
  | nil => rfl
  | cons c t ih =>
    simp only [replaceCol]
    congr 1
    · by_cases hc : c.name == n
      · have hcn : c.name = n := by simpa using hc
        have hcells := h c (List.mem_cons_self c t) hcn
        rw [if_pos hc]
        cases c with
        | mk nm ce =>
          simp only at hcn hcells
          rw [hcn, hcells]
      · rw [if_neg hc]
    · exact ih (fun d hd hdn => h d (List.mem_cons_of_mem c hd) hdn)

theorem setCol_of_uniform (t : Table) (n : String) (cs : List Val)
    (h : Uniform t n cs) : setCol t n cs = t := by
  obtain ⟨h1, h2⟩ := h
  unfold setCol
  rw [if_pos h1]
  exact replaceCol_of_uniform t n cs h2

theorem getCol_of_uniform (t : Table) (n : String) (cs : List Val)
    (h : Uniform t n cs) : getCol t n = cs := by
  obtain ⟨h1, h2⟩ := h
  induction t with
  | nil => simp [hasCol] at h1
  | cons c t ih =>
    by_cases hc : c.name == n
    · have hcn : c.name = n := by simpa using hc
      simp only [getCol, hc, if_true]
      exact h2 c (List.mem_cons_self c t) hcn
    · simp only [hasCol, hc, Bool.false_or] at h1
      simp only [getCol, hc, Bool.false_eq_true, if_false]
      exact ih h1 (fun d hd hdn => h2 d (List.mem_cons_of_mem c hd) hdn)

theorem uniform_setCol_self (t : Table) (n : String) (cs : List Val) :
    Uniform (setCol t n cs) n cs := by
  refine ⟨hasCol_setCol_self t n cs, ?_⟩
  unfold setCol
  by_cases h : hasCol t n
  · rw [if_pos h]
    clear h
    induction t with
    | nil => intro c hc hn; simp [replaceCol] at hc
    | cons c t ih =>
      intro d hd hdn
      simp only [replaceCol, List.mem_cons] at hd
      rcases hd with hd | hd
      · by_cases hc : c.name == n
        · rw [if_pos hc] at hd
          rw [hd]
        · rw [if_neg hc] at hd
          subst hd
          exact absurd hdn (by simpa using hc)
      · exact ih d hd hdn
  · rw [if_neg h]
    intro c hc hname
    rcases List.mem_append.mp hc with h1 | h1
    · exfalso
      have hhas : hasCol t n = true := by
        clear hc
        induction t with
        | nil => simp at h1
        | cons d t ih =>
          simp only [List.mem_cons] at h1
          rcases h1 with h1 | h1
          · subst h1
            simp [hasCol, hname]
          · simp only [hasCol, Bool.or_eq_true]
            right
            exact ih (fun hh => h (by simp [hasCol, Bool.or_eq_true]; right; simpa using hh)) h1
      exact h hhas
    · rcases List.mem_singleton.mp h1 with rfl
      rfl

theorem uniform_setCol_ne (t : Table) (n m : String) (cs ds : List Val)
    (hnm : n ≠ m) (h : Uniform t n cs) : Uniform (setCol t m ds) n cs := by
  obtain ⟨h1, h2⟩ := h
  refine ⟨by rw [hasCol_setCol_ne t m n ds hnm]; exact h1, ?_⟩
  unfold setCol
  by_cases hm : hasCol t m
  · rw [if_pos hm]
    clear hm h1
    induction t with
    | nil => intro c hc hn; simp [replaceCol] at hc
    | cons c t ih =>
      intro d hd hdn
      simp only [replaceCol, List.mem_cons] at hd
      rcases hd with hd | hd
      · by_cases hc : c.name == m
        · rw [if_pos hc] at hd
          subst hd
          exact absurd hdn hnm.symm
        · rw [if_neg hc] at hd
          subst hd
          exact h2 d (List.mem_cons_self d t) hdn
      · exact ih (fun e he hen => h2 e (List.mem_cons_of_mem c he) hen) d hd hdn
  · rw [if_neg hm]
    intro c hc hname
    rcases List.mem_append.mp hc with hIn | hIn
    · exact h2 c hIn hname
    · rcases List.mem_singleton.mp hIn with rfl
      exact absurd hname hnm.symm

/- ### Models of the pandas library primitives used by the pipeline -/

/-- Value of a digit string read left to right. -/
def digitsToNat (l : List Char) : Nat :=
  l.foldl (fun n c => 10 * n + (c.toNat - 48)) 0

/-- ASCII decimal digit test. -/
def isDigitChar (c : Char) : Bool :=
  48 ≤ c.toNat && c.toNat ≤ 57

/-- ASCII whitespace test. -/
def isWsChar (c : Char) : Bool :=
  c == ' ' || c == '\t' || c == '\n' || c == '\r'

/-- Strip leading and trailing whitespace from a character list. -/
def trimChars (l : List Char) : List Char :=
  ((l.dropWhile isWsChar).reverse.dropWhile isWsChar).reverse

/-- Split a character list on a separator character. -/
def splitOnChar (sep : Char) : List Char → List (List Char)
  | [] => [[]]
  | x :: xs =>
    match splitOnChar sep xs with
    | h :: t => if x == sep then [] :: h :: t else (x :: h) :: t
    | [] => [[x]]

/-- Parse a nonempty all-digit character list. -/
def charsToNat? (l : List Char) : Option Nat :=
  if l.length > 0 && l.all isDigitChar then some (digitsToNat l) else none

/-- Model of `pd.to_datetime(_, dayfirst=True, errors="coerce")` on a string
cell: a day-first `D/M/YYYY` (or `D-M-YYYY`) literal parses, anything else
becomes the missing marker. -/
def parseDateStr (s : String) : Option PDate :=
  let l := s.data
  let parts := if l.contains '/' then splitOnChar '/' l else splitOnChar '-' l
  match parts.map charsToNat? with
  | [some d, some m, some y] =>
    if 1 ≤ m && m ≤ 12 && 1 ≤ d && d ≤ 31 then some ⟨(y : Int), m, d⟩ else none
  | _ => none

/-- Day-first coercing date parse of one cell.  An already parsed date is kept
unchanged; a missing cell stays missing; cells that do not parse (including
numeric epoch values, which no claim exercises) coerce to missing. -/
def parseDateVal : Val → Option PDate
  | Val.date d => some d
  | Val.str s => parseDateStr s
  | _ => none

/-- One cell of the date-fixing pass: parse result or NaT. -/
def toDateCell (v : Val) : Val :=
  match parseDateVal v with
  | some d => Val.date d
  | none => Val.na

/-- English month name, the model of `strftime` with the month-name format in
the default C locale. -/
def monthName : Nat → String
  | 1 => "January" | 2 => "February" | 3 => "March" | 4 => "April"
  | 5 => "May" | 6 => "June" | 7 => "July" | 8 => "August"
  | 9 => "September" | 10 => "October" | 11 => "November" | 12 => "December"
  | _ => ""

/-- Numeric view of a cell for arithmetic: `none` means the element-wise
operation raises (string or date operand), `some none` means the missing
marker propagates, `some (some q)` is a number (booleans count as 0/1, as in
pandas arithmetic). -/
def toQ : Val → Option (Option ℚ)
  | Val.num q => some (some q)
  | Val.na => some none
  | Val.bool b => some (some (if b then 1 else 0))
  | _ => none

/-- Sequence a fallible function over a list, failing when any element fails
(the structural equivalent of `List.mapM` over `Option`). -/
def optMapM (f : α → Option β) : List α → Option (List β)
  | [] => some []
  | a :: t => do
    let b ← f a
    let bs ← optMapM f t
    pure (b :: bs)

/-- Element-wise binary arithmetic on cells with NaN propagation; `none` when
the operation would raise a TypeError. -/
def vBin (f : ℚ → ℚ → ℚ) (a b : Val) : Option Val := do
  let x ← toQ a
  let y ← toQ b
  pure (match x, y with
        | some p, some q => Val.num (f p q)
        | _, _ => Val.na)

/-- Element-wise binary arithmetic on two columns. -/
def colBin (f : ℚ → ℚ → ℚ) (as bs : List Val) : Option (List Val) :=
  optMapM (fun p => vBin f p.1 p.2) (as.zip bs)

/-- Multiplication of a column by a scalar literal. -/
def colScale (as : List Val) (c : ℚ) : Option (List Val) :=
  optMapM (fun a => vBin (fun x y => x * y) a (Val.num c)) as

/- ### preprocess_ventas_data (dashboard_dash.py lines 65-101) -/

/-- The fixed set of foreign/online store identifiers of dashboard_dash.py. -/
def TIENDAS_EXTRANJERAS : List String := [
  "I301COINBERGAMO(TRUCCO)", "I302COINVARESE(TRUCCO)", "I303COINBARICASAMASSIMA(TRUCCO)",
  "I304COINMILANO5GIORNATE(TRUCCO)", "I305COINROMACINECITTA(TRUCCO)", "I306COINGENOVA(TRUCCO)",
  "I309COINSASSARI(TRUCCO)", "I314COINCATANIA(TRUCCO)", "I315COINCAGLIARI(TRUCCO)",
  "I316COINLECCE(TRUCCO)", "I317COINMILANOCANTORE(TRUCCO)", "I318COINMESTRE(TRUCCO)",
  "I319COINPADOVA(TRUCCO)", "I320COINFIRENZE(TRUCCO)", "I321COINROMASANGIOVANNI(TRUCCO)",
  "TRUCCOONLINEB2C"
]

/-- Date fixing of one column, guarded by column existence as in the source
loop over `date_columns`. -/
def fixDateCol (t : Table) (n : String) : Table :=
  if hasCol t n then setCol t n ((getCol t n).map toDateCell) else t

/-- The `date_columns` list of preprocess_ventas_data. -/
def ventasDateCols : List String := ["Fecha Documento", "Fecha"]

/-- The date-fixing loop of preprocess_ventas_data. -/
def fixDatesVentas (t : Table) : Table :=
  ventasDateCols.foldl fixDateCol t

/-- `dt.year` of one cell (NaT gives NaN). -/
def yearCell : Val → Val
  | Val.date d => Val.num (d.year : ℚ)
  | _ => Val.na

/-- `dt.month` of one cell (NaT gives NaN). -/
def monthCell : Val → Val
  | Val.date d => Val.num (d.month : ℚ)
  | _ => Val.na

/-- `dt.strftime` month name of one cell (NaT gives NaN). -/
def monthNameCell : Val → Val
  | Val.date d => Val.str (monthName d.month)
  | _ => Val.na

/-- The derived date columns `Año`, `Mes`, `Mes_Nombre`, added only when
`Fecha Documento` exists (dashboard_dash.py lines 81-84). -/
def addDateDerived (t : Table) : Table :=
  if hasCol t "Fecha Documento" then
    setCol (setCol (setCol t "Año" ((getCol t "Fecha Documento").map yearCell))
        "Mes" ((getCol t "Fecha Documento").map monthCell))
      "Mes_Nombre" ((getCol t "Fecha Documento").map monthNameCell)
  else t

/-- One cell of `df["Tienda"].isin(TIENDAS_EXTRANJERAS)`. -/
def isinTiendas (v : Val) : Val :=
  Val.bool (TIENDAS_EXTRANJERAS.any (fun s => v == Val.str s))

/-- The unguarded `df["Es_Online"] = df["Tienda"].isin(...)` of line 87:
raises a KeyError (modelled as `none`) when `Tienda` is absent. -/
def addEsOnline (t : Table) : Option Table :=
  if hasCol t "Tienda" then
    some (setCol t "Es_Online" ((getCol t "Tienda").map isinTiendas))
  else none

/-- The `Beneficio` derivation of lines 89-95: skipped when the column
already exists, `(P.V.P. - Precio Coste) * Cantidad` when cost is present,
`P.V.P. * Cantidad * 0.5` as the cost-free fallback, nothing when neither
prerequisite set is present.  `none` models an arithmetic TypeError. -/
def addBeneficio (t : Table) : Option Table :=
  if hasCol t "Beneficio" then some t
  else if hasCol t "P.V.P." && hasCol t "Cantidad" && hasCol t "Precio Coste" then do
    let d ← colBin (fun x y => x - y) (getCol t "P.V.P.") (getCol t "Precio Coste")
    let b ← colBin (fun x y => x * y) d (getCol t "Cantidad")
    pure (setCol t "Beneficio" b)
  else if hasCol t "P.V.P." && hasCol t "Cantidad" then do
    let m ← colBin (fun x y => x * y) (getCol t "P.V.P.") (getCol t "Cantidad")
    let b ← colScale m (1/2)
    pure (setCol t "Beneficio" b)
  else some t

/-- The try-block body of preprocess_ventas_data (the copy, date fixes,
derived columns, online flag and margin); `none` models a raised exception. -/
def preprocessVentasBody (t : Table) : Option Table := do
  addBeneficio (← addEsOnline (addDateDerived (fixDatesVentas t)))

/-- preprocess_ventas_data: identity on an empty frame, the processed copy on
success, and the unmodified input when the body raises (the except branch of
lines 99-101). -/
def preprocess_ventas_data (t : Table) : Table :=
  if isEmptyT t then t else (preprocessVentasBody t).getD t

/-- preprocess_productos_data (lines 103-121): only the two date columns are
fixed; the body cannot raise, so the except branch is dead. -/
def preprocess_productos_data (t : Table) : Table :=
  if isEmptyT t then t
  else ["Fecha Entrada Almacén", "Fecha Documento"].foldl fixDateCol t

/- ### load_excel_data (dash_app.py lines 40-105) -/

/-- Model of `pd.to_numeric(_, errors="coerce")` on a string: an optional
sign, digits and an optional fractional part parse to a rational, anything
else coerces to missing. -/
def parseNumStr (s : String) : Option ℚ :=
  let l := trimChars s.data
  let sg : ℚ × List Char :=
    match l with
    | c :: rest =>
      if c == '-' then (-1, rest) else if c == '+' then (1, rest) else (1, l)
    | [] => (1, l)
  match splitOnChar '.' sg.2 with
  | [ip] =>
    if ip.length > 0 && ip.all isDigitChar
    then some (sg.1 * (digitsToNat ip : ℚ)) else none
  | [ip, fp] =>
    if (ip.length > 0 || fp.length > 0) && ip.all isDigitChar && fp.all isDigitChar
    then some (sg.1 * ((digitsToNat ip : ℚ)
          + (digitsToNat fp : ℚ) / (10 ^ fp.length))) else none
  | _ => none

/-- `pd.to_numeric(_, errors="coerce")` on one cell: numbers stay, booleans
become 0/1, parsable strings parse, everything else coerces to missing. -/
def toNumericVal : Val → Option ℚ
  | Val.num q => some q
  | Val.bool b => some (if b then 1 else 0)
  | Val.str s => parseNumStr s
  | _ => none

/-- `astype(str)` of one cell followed by `.replace("nan", "")`: the missing
marker prints as `nan` and is then replaced by the empty string, as is a
literal `"nan"` string. -/
def valAsText : Val → Val
  | Val.na => Val.str ""
  | Val.str s => Val.str (if s == "nan" then "" else s)
  | Val.num q => Val.str (toString q)
  | Val.bool b => Val.str (if b then "True" else "False")
  | Val.date d =>
    Val.str (toString d.year ++ "-" ++ toString d.month ++ "-" ++ toString d.day)

/-- The per-column type inference of dash_app.py lines 87-95, applied to a
column of an object-dtype frame with `n = len(df)` rows: when the count of
values that parse as numeric exceeds `len(df) * 0.8` the column is coerced to
numeric with non-parsing values becoming missing, otherwise every value is
rendered as text with missing values becoming the empty string. -/
def inferColumn (n : Nat) (cs : List Val) : List Val :=
  if ((cs.filterMap toNumericVal).length : ℚ) > (n : ℚ) * (8 / 10) then
    cs.map (fun v => match toNumericVal v with
                     | some q => Val.num q
                     | none => Val.na)
  else cs.map valAsText

/-- A column as delivered by `pd.read_excel`: the dtype flag records whether
the sheet parser left it as an object column (only those are type-inferred by
the loader loop). -/
structure RawCol where
  name : String
  isObject : Bool
  cells : List Val
deriving DecidableEq, Repr

/-- A sheet as delivered by `pd.read_excel`. -/
abbrev RawTable := List RawCol

/-- Number of rows of a raw sheet. -/
def rawNrows (t : RawTable) : Nat :=
  match t with
  | [] => 0
  | c :: _ => c.cells.length

/-- The type-inference loop of lines 86-95 over the columns of one frame. -/
def inferTypes (t : RawTable) : Table :=
  t.map (fun c => ⟨c.name, if c.isObject then inferColumn (rawNrows t) c.cells else c.cells⟩)

/-- Whether row `i` is entirely missing. -/
def rowAllNa (t : Table) (i : Nat) : Bool :=
  t.all (fun c => c.cells.getD i Val.na == Val.na)

/-- `df.dropna(how="all", inplace=True)`: drop the rows that are entirely
missing. -/
def dropNaRows (t : Table) : Table :=
  let keep := (List.range (nrows t)).filter (fun i => !rowAllNa t i)
  t.map (fun c => ⟨c.name, keep.filterMap (fun i => c.cells.getD i Val.na)⟩)

/-- `df.dropna(axis=1, how="all", inplace=True)`: drop the columns that are
entirely missing. -/
def dropNaCols (t : Table) : Table :=
  t.filter (fun c => !c.cells.all (fun v => v == Val.na))

/-- The early-cleaning steps applied to each parsed sheet: type inference,
then all-missing row and column removal. -/
def cleanTable (t : RawTable) : Table :=
  dropNaCols (dropNaRows (inferTypes t))

/-- Sheet lookup; `none` models the XLRDError / ValueError that
`pd.read_excel` raises for a missing sheet name. -/
def findSheet (wb : List (String × RawTable)) (n : String) : Option RawTable :=
  (wb.find? (fun p => p.1 == n)).map Prod.snd

/-- load_excel_data: the argument is `none` when decoding or workbook parsing
raises (corrupt upload), otherwise the parsed sheet collection.  Every raised
error is caught by the except branch of lines 103-105, which returns three
empty frames. -/
def load_excel_data (wb : Option (List (String × RawTable))) :
    Table × Table × Table :=
  match wb with
  | none => ([], [], [])
  | some sheets =>
    match findSheet sheets "Compra",
          findSheet sheets "Traspasos de almacén a tienda",
          findSheet sheets "ventas 23 24 25" with
    | some p, some tr, some v => (cleanTable p, cleanTable tr, cleanTable v)
    | _, _, _ => ([], [], [])

/- ### The price-bucket cut of create_pvp_analysis (lines 471-505) -/

/-- The bin edges `[0, 10, 25, 50, 100, float("inf")]`; `none` is the
unbounded top edge. -/
def pvpEdges : List (Option ℚ) := [some 0, some 10, some 25, some 50, some 100, none]

/-- The bucket labels of the `pd.cut` call. -/
def pvpLabels : List String := ["0-10€", "10-25€", "25-50€", "50-100€", "100€+"]

/-- Whether `q` lies in the half-open interval (lo, hi] of one `pd.cut` bin
(`right=True`, the pandas default: left-open, right-closed). -/
def inBin (q : ℚ) (lo hi : Option ℚ) : Bool :=
  (match lo with | some e => decide (e < q) | none => false) &&
  (match hi with | some e => decide (q ≤ e) | none => true)

/-- Index of the bin of `q` among consecutive edge pairs. -/
def binIndex (q : ℚ) : List (Option ℚ) → Option Nat
  | lo :: hi :: rest =>
    if inBin q lo hi then some 0 else (binIndex q (hi :: rest)).map (fun i => i + 1)
  | _ => none

/-- `pd.cut` of one cell over the price bins: values outside every bin and
missing values give the missing marker, a non-numeric cell raises. -/
def cutCell (v : Val) : Option Val :=
  match v with
  | Val.na => some Val.na
  | Val.num q =>
    some (match binIndex q pvpEdges with
          | some i =>
            match pvpLabels[i]? with
            | some l => Val.str l
            | none => Val.na
          | none => Val.na)
  | _ => none

/-- `pd.cut` over the whole `P.V.P.` column. -/
def cutCol (cs : List Val) : Option (List Val) :=
  optMapM cutCell cs

/-- The state of the sales frame passed to create_pvp_analysis after the call
returns: line 482 assigns the bucket column `Rango_Precio` onto the received
frame itself (no copy), so the caller's frame gains that column whenever the
`P.V.P.` column exists and the cut does not raise.  The early return of line
474 and a raising cut leave the frame untouched. -/
def create_pvp_analysis_effect (df : Table) : Table :=
  if hasCol df "P.V.P." then
    match cutCol (getCol df "P.V.P.") with
    | some cs => setCol df "Rango_Precio" cs
    | none => df
  else df

/- ### The returns selections (lines 148-150 and 456-464) -/

/-- One cell of `df["Cantidad"] < 0`: missing compares as False, a
non-numeric cell raises. -/
def vLtZero : Val → Option Bool
  | Val.num q => some (decide (q < 0))
  | Val.bool _ => some false
  | Val.na => some false
  | _ => none

/-- Boolean-mask filtering of one column. -/
def maskFilter (cs : List Val) (mask : List Bool) : List Val :=
  ((cs.zip mask).filter (fun p => p.2)).map Prod.fst

/-- Boolean-mask row filtering of a frame, the model of `df[mask]`. -/
def filterRows (t : Table) (mask : List Bool) : Table :=
  t.map (fun c => ⟨c.name, maskFilter c.cells mask⟩)

/-- `Series.sum()` with the default NaN skipping; 0 on an all-missing or
empty column. -/
def numCellSum (cs : List Val) : ℚ :=
  (cs.filterMap (fun v => match v with
                          | Val.num q => some q
                          | Val.bool b => some (if b then 1 else 0)
                          | _ => none)).sum

/-- Python `abs` on an exact rational. -/
def ratAbs (q : ℚ) : ℚ :=
  if q < 0 then -q else q

/-- The returns card numbers of create_product_analysis (lines 456-464):
the record count `len(devoluciones)` and the returned units
`abs(devoluciones["Cantidad"].sum())`; `none` when the `Cantidad` column is
absent, when the comparison raises, or when no row has negative quantity (the
card is not rendered then). -/
def create_product_analysis_devol (t : Table) : Option (Nat × ℚ) :=
  if hasCol t "Cantidad" then
    match optMapM vLtZero (getCol t "Cantidad") with
    | some mask =>
      let dev := filterRows t mask
      if nrows dev == 0 then none
      else some (nrows dev, ratAbs (numCellSum (getCol dev "Cantidad")))
    | none => none
  else none

/- ### custom_sort_key (lines 41-59) -/

/-- The fixed letter-size sequence of the comparator. -/
def size_order : List String := ["XS", "S", "M", "L", "XL", "XXL"]

/-- The fixed one-size labels of the comparator. -/
def unique_sizes : List String := ["U", "ÚNICA", "UNICA", "TU"]

/-- ASCII upper-casing of one character, which covers every size label the
claims exercise. -/
def upperChar (c : Char) : Char :=
  if 97 ≤ c.toNat && c.toNat ≤ 122 then Char.ofNat (c.toNat - 32) else c

/-- `str(talla).upper().strip()`. -/
def normTalla (s : String) : String :=
  String.mk (trimChars (s.data.map upperChar))

/-- The four key shapes returned by custom_sort_key, mirroring the Python
tuples `(0, int)`, `(1, index)`, `(2, str)`, `(3, str)`. -/
inductive SizeKey where
  | numeric : Nat → SizeKey
  | letter : Nat → SizeKey
  | oneSize : String → SizeKey
  | other : String → SizeKey
deriving DecidableEq, Repr

/-- custom_sort_key: digit strings by value, then the fixed letter sizes by
position, then the one-size labels, then everything else by text. -/
def custom_sort_key (talla : String) : SizeKey :=
  let ts := normTalla talla
  if ts.data.length > 0 && ts.data.all isDigitChar then
    SizeKey.numeric (digitsToNat ts.data)
  else if size_order.contains ts then
    SizeKey.letter (size_order.findIdx (fun x => x == ts))
  else if unique_sizes.contains ts then SizeKey.oneSize ts
  else SizeKey.other ts

/-- The priority tier of a key (the first tuple component in Python). -/
def keyTier : SizeKey → Nat
  | SizeKey.numeric _ => 0
  | SizeKey.letter _ => 1
  | SizeKey.oneSize _ => 2
  | SizeKey.other _ => 3

/-- Lexicographic code-point comparison of character lists, the model of the
Python string order. -/
def charListLe : List Char → List Char → Bool
  | [], _ => true
  | _ :: _, [] => false
  | a :: as, b :: bs =>
    if a.toNat < b.toNat then true
    else if b.toNat < a.toNat then false
    else charListLe as bs

/-- Python string `<=`. -/
def strLe (a b : String) : Bool :=
  charListLe a.data b.data

/-- Python tuple comparison of two sort keys: tier first, then the
within-tier payload. -/
def keyLe : SizeKey → SizeKey → Bool
  | SizeKey.numeric a, SizeKey.numeric b => a ≤ b
  | SizeKey.letter a, SizeKey.letter b => a ≤ b
  | SizeKey.oneSize a, SizeKey.oneSize b => strLe a b
  | SizeKey.other a, SizeKey.other b => strLe a b
  | a, b => keyTier a ≤ keyTier b

/-- Stable insertion of one element into a sorted list. -/
def insertSorted (le : α → α → Bool) (x : α) : List α → List α
  | [] => [x]
  | y :: ys => if le x y then x :: y :: ys else y :: insertSorted le x ys

/-- Stable sort by a boolean comparison, the model of Python `sorted`. -/
def sortedBy (le : α → α → Bool) (l : List α) : List α :=
  l.foldr (insertSorted le) []

/-- `sorted(sizes, key=custom_sort_key)`. -/
def sortSizes (l : List String) : List String :=
  sortedBy (fun a b => keyLe (custom_sort_key a) (custom_sort_key b)) l

/- ### The cost join of create_dashboard_content (lines 328-345) -/

/-- The row pairing of a left-outer merge on one key column: every left row
in order, paired with each matching right row in order, or with no right row
when there is no match. -/
def matchPairs (lk rk : List Val) : List (Nat × Option Nat) :=
  (List.range lk.length).flatMap (fun i =>
    let ms := (List.range rk.length).filter
      (fun j => rk.getD j Val.na == lk.getD i Val.na)
    if ms.isEmpty then [(i, none)] else ms.map (fun j => (i, some j)))

/-- `df_ventas.merge(df_productos[["Código único", "Precio Coste"]],
on="Código único", how="left", suffixes=("", "_producto"))`: all sales
columns re-indexed by the join, then the product cost column, suffixed only
when the sales frame already has a `Precio Coste` column. -/
def mergeCostProducto (v p : Table) : Table :=
  v.map (fun c => ⟨c.name,
    (matchPairs (getCol v "Código único") (getCol p "Código único")).map
      (fun ij => c.cells.getD ij.1 Val.na)⟩) ++
  [⟨if hasCol v "Precio Coste" then "Precio Coste_producto" else "Precio Coste",
    (matchPairs (getCol v "Código único") (getCol p "Código único")).map (fun ij =>
      match ij.2 with
      | some j => (getCol p "Precio Coste").getD j Val.na
      | none => Val.na)⟩]

/-- `a.combine_first(b)`: the values of `a`, filled from `b` where missing. -/
def combineFirst (a b : List Val) : List Val :=
  (a.zip b).map (fun p => if p.1 == Val.na then p.2 else p.1)

/-- Column removal, the model of `df.drop(columns=[n])`. -/
def dropColT (t : Table) (n : String) : Table :=
  t.filter (fun c => !(c.name == n))

/-- The data part of create_dashboard_content: preprocess both frames, then
join the product cost into the sales frame when both key columns exist, and
overwrite `Precio Coste` by `combine_first` when the suffixed column
appeared.  `none` models the uncaught KeyError raised by the two-column
selection when `df_productos` lacks `Precio Coste`. -/
def create_dashboard_content_data (dfProductos dfVentas : Table) : Option Table :=
  if hasCol (preprocess_ventas_data dfVentas) "Código único" &&
      hasCol (preprocess_productos_data dfProductos) "Código único" then
    if hasCol (preprocess_productos_data dfProductos) "Precio Coste" then
      some (if hasCol (mergeCostProducto (preprocess_ventas_data dfVentas)
                (preprocess_productos_data dfProductos)) "Precio Coste_producto" then
              dropColT (setCol (mergeCostProducto (preprocess_ventas_data dfVentas)
                  (preprocess_productos_data dfProductos)) "Precio Coste"
                (combineFirst
                  (getCol (mergeCostProducto (preprocess_ventas_data dfVentas)
                    (preprocess_productos_data dfProductos)) "Precio Coste_producto")
                  (getCol (mergeCostProducto (preprocess_ventas_data dfVentas)
                    (preprocess_productos_data dfProductos)) "Precio Coste")))
                "Precio Coste_producto"
            else mergeCostProducto (preprocess_ventas_data dfVentas)
              (preprocess_productos_data dfProductos))
    else none
  else some (preprocess_ventas_data dfVentas)

/- ### Characterization of the price-bucket cut -/

theorem binIndex_pvp (q : ℚ) :
    binIndex q pvpEdges =
      if 0 < q ∧ q ≤ 10 then some 0
      else if 10 < q ∧ q ≤ 25 then some 1
      else if 25 < q ∧ q ≤ 50 then some 2
      else if 50 < q ∧ q ≤ 100 then some 3
      else if 100 < q then some 4
      else none := by
  simp only [pvpEdges, binIndex, inBin, Bool.and_eq_true, decide_eq_true_eq]
  split_ifs <;> simp_all

theorem cutCell_num (q : ℚ) :
    cutCell (Val.num q) =
      some (if 0 < q ∧ q ≤ 10 then Val.str "0-10€"
            else if 10 < q ∧ q ≤ 25 then Val.str "10-25€"
            else if 25 < q ∧ q ≤ 50 then Val.str "25-50€"
            else if 50 < q ∧ q ≤ 100 then Val.str "50-100€"
            else if 100 < q then Val.str "100€+"
            else Val.na) := by
  simp only [cutCell, binIndex_pvp]
  split_ifs <;> simp [pvpLabels]

/-- C1, counterexample: the code sends a list price of exactly 10 to the
`0-10€` bucket, not to the `10-25€` bucket, because `pd.cut` uses
right-closed intervals by default. -/
theorem C1_counterexample :
    cutCell (Val.num 10) = some (Val.str "0-10€") ∧
    cutCell (Val.num 10) ≠ some (Val.str "10-25€") := by
  constructor
  · decide
  · decide

/-- C1 (amended): every price band of the histogram is exclusive on the left
and inclusive on the right — the five bands are (0,10], (10,25], (25,50],
(50,100], (100,∞) — so a row with list price exactly 10 is assigned to the
`0-10€` bucket, and prices at or below 0 fall into no bucket at all. -/
theorem C1_price_bands (q : ℚ) :
    (cutCell (Val.num q) = some (Val.str "0-10€") ↔ 0 < q ∧ q ≤ 10) ∧
    (cutCell (Val.num q) = some (Val.str "10-25€") ↔ 10 < q ∧ q ≤ 25) ∧
    (cutCell (Val.num q) = some (Val.str "25-50€") ↔ 25 < q ∧ q ≤ 50) ∧
    (cutCell (Val.num q) = some (Val.str "50-100€") ↔ 50 < q ∧ q ≤ 100) ∧
    (cutCell (Val.num q) = some (Val.str "100€+") ↔ 100 < q) ∧
    (q ≤ 0 → cutCell (Val.num q) = some Val.na) := by
  simp only [cutCell_num]
  refine ⟨⟨?_, ?_⟩, ⟨?_, ?_⟩, ⟨?_, ?_⟩, ⟨?_, ?_⟩, ⟨?_, ?_⟩, ?_⟩
  · intro h
    split_ifs at h with h1 h2 h3 h4 h5
    · exact h1
    all_goals simp_all
  · intro h
    rw [if_pos h]
  · intro h
    split_ifs at h with h1 h2 h3 h4 h5
    · simp_all
    · exact h2
    all_goals simp_all
  · intro h
    have h1 : ¬(0 < q ∧ q ≤ 10) := by rintro ⟨-, b⟩; linarith [h.1]
    rw [if_neg h1, if_pos h]
  · intro h
    split_ifs at h with h1 h2 h3 h4 h5
    · simp_all
    · simp_all
    · exact h3
    all_goals simp_all
  · intro h
    have h1 : ¬(0 < q ∧ q ≤ 10) := by rintro ⟨-, b⟩; linarith [h.1]
    have h2 : ¬(10 < q ∧ q ≤ 25) := by rintro ⟨-, b⟩; linarith [h.1]
    rw [if_neg h1, if_neg h2, if_pos h]
  · intro h
    split_ifs at h with h1 h2 h3 h4 h5
    · simp_all
    · simp_all
    · simp_all
    · exact h4
    all_goals simp_all
  · intro h
    have h1 : ¬(0 < q ∧ q ≤ 10) := by rintro ⟨-, b⟩; linarith [h.1]
    have h2 : ¬(10 < q ∧ q ≤ 25) := by rintro ⟨-, b⟩; linarith [h.1]
    have h3 : ¬(25 < q ∧ q ≤ 50) := by rintro ⟨-, b⟩; linarith [h.1]
    rw [if_neg h1, if_neg h2, if_neg h3, if_pos h]
  · intro h
    split_ifs at h with h1 h2 h3 h4 h5
    · simp_all
    · simp_all
    · simp_all
    · simp_all
    · exact h5
    · simp_all
  · intro h
    have h1 : ¬(0 < q ∧ q ≤ 10) := by rintro ⟨-, b⟩; linarith
    have h2 : ¬(10 < q ∧ q ≤ 25) := by rintro ⟨-, b⟩; linarith
    have h3 : ¬(25 < q ∧ q ≤ 50) := by rintro ⟨-, b⟩; linarith
    have h4 : ¬(50 < q ∧ q ≤ 100) := by rintro ⟨-, b⟩; linarith
    rw [if_neg h1, if_neg h2, if_neg h3, if_neg h4, if_pos h]
  · intro h
    have h1 : ¬(0 < q ∧ q ≤ 10) := by rintro ⟨a, -⟩; linarith
    have h2 : ¬(10 < q ∧ q ≤ 25) := by rintro ⟨a, -⟩; linarith
    have h3 : ¬(25 < q ∧ q ≤ 50) := by rintro ⟨a, -⟩; linarith
    have h4 : ¬(50 < q ∧ q ≤ 100) := by rintro ⟨a, -⟩; linarith
    have h5 : ¬(100 < q) := by linarith
    rw [if_neg h1, if_neg h2, if_neg h3, if_neg h4, if_neg h5]

/-- C1, witness for the amended claim at the boundary price 10. -/
theorem C1_price_bands_witness :
    cutCell (Val.num 10) = some Val.na ∨ cutCell (Val.num 10) = some (Val.str "0-10€") :=
  Or.inr ((C1_price_bands 10).1.mpr (by norm_num))

/- ### C4: in-place mutation by the chart builders -/

/-- C4, counterexample: create_pvp_analysis mutates the sales frame it is
handed — after the call the frame has gained the `Rango_Precio` column. -/
theorem C4_counterexample :
    create_pvp_analysis_effect [⟨"P.V.P.", [Val.num 5]⟩] ≠ [⟨"P.V.P.", [Val.num 5]⟩] := by
  decide

/-- C4 (amended): every stage except the PVP chart builder leaves the frames
it receives unchanged; create_pvp_analysis is the one exception — it either
leaves its input untouched (no `P.V.P.` column, or a raising cut) or writes
the `Rango_Precio` bucket column onto the caller's sales frame in place. -/
theorem C4_pvp_mutation :
    (∀ t : Table, create_pvp_analysis_effect t = t ∨
      ∃ cs, cutCol (getCol t "P.V.P.") = some cs ∧
        create_pvp_analysis_effect t = setCol t "Rango_Precio" cs) ∧
    (∀ t : Table, hasCol t "P.V.P." = false → create_pvp_analysis_effect t = t) := by
  constructor
  · intro t
    unfold create_pvp_analysis_effect
    by_cases h : hasCol t "P.V.P."
    · rw [if_pos h]
      cases hc : cutCol (getCol t "P.V.P.") with
      | none => exact Or.inl rfl
      | some cs => exact Or.inr ⟨cs, rfl, rfl⟩
    · rw [if_neg h]
      exact Or.inl rfl
  · intro t h
    unfold create_pvp_analysis_effect
    rw [h]
    simp

/-- C4, witness: a frame without a `P.V.P.` column passes through the PVP
builder unchanged. -/
theorem C4_pvp_mutation_witness :
    create_pvp_analysis_effect [⟨"Cantidad", [Val.num 1]⟩] = [⟨"Cantidad", [Val.num 1]⟩] :=
  C4_pvp_mutation.2 [⟨"Cantidad", [Val.num 1]⟩] (by decide)

/- ### C7: the loader failure policy -/

/-- C7: every parse failure — an undecodable upload or any of the three named
sheets missing — is caught and the loader returns three empty tables; the
error is never raised to the caller. -/
theorem C7_loader_failure_policy :
    load_excel_data none = ([], [], []) ∧
    ∀ sheets, (findSheet sheets "Compra" = none ∨
        findSheet sheets "Traspasos de almacén a tienda" = none ∨
        findSheet sheets "ventas 23 24 25" = none) →
      load_excel_data (some sheets) = ([], [], []) := by
  refine ⟨rfl, ?_⟩
  intro sheets h
  unfold load_excel_data
  cases hA : findSheet sheets "Compra" <;>
    cases hB : findSheet sheets "Traspasos de almacén a tienda" <;>
      cases hC : findSheet sheets "ventas 23 24 25" <;>
        simp_all

/-- C7, witness: a decodable workbook with no sheets at all yields the three
empty tables. -/
theorem C7_loader_failure_policy_witness :
    load_excel_data (some []) = ([], [], []) :=
  C7_loader_failure_policy.2 [] (Or.inl rfl)

/- ### C9: the size comparator -/

/-- C9: the comparator orders sizes in four tiers — numeric sizes ascending
by value, then the letter sequence XS,S,M,L,XL,XXL by position, then the
one-size labels, then everything else alphabetically — and sorting the sample
list gives exactly the order the claim states. -/
theorem C9_size_ordering :
    sortSizes ["M", "38", "XL", "36", "U", "S", "Z"] = ["36", "38", "S", "M", "XL", "U", "Z"] ∧
    (∀ a b : SizeKey, keyTier a < keyTier b → keyLe a b = true ∧ keyLe b a = false) ∧
    (∀ m n : Nat, keyLe (SizeKey.numeric m) (SizeKey.numeric n) = decide (m ≤ n)) ∧
    (∀ i j : Nat, keyLe (SizeKey.letter i) (SizeKey.letter j) = decide (i ≤ j)) ∧
    (∀ s u : String, keyLe (SizeKey.oneSize s) (SizeKey.oneSize u) = strLe s u) ∧
    (∀ s u : String, keyLe (SizeKey.other s) (SizeKey.other u) = strLe s u) ∧
    custom_sort_key "36" = SizeKey.numeric 36 ∧
    custom_sort_key "M" = SizeKey.letter 2 ∧
    custom_sort_key "U" = SizeKey.oneSize "U" ∧
    custom_sort_key "Z" = SizeKey.other "Z" := by
  refine ⟨by decide, ?_, fun m n => rfl, fun i j => rfl, fun s u => rfl, fun s u => rfl,
    by decide, by decide, by decide, by decide⟩
  intro a b h
  cases a <;> cases b <;> simp_all [keyLe, keyTier]

/-- C9, witness: a numeric size precedes a letter size under the comparator. -/
theorem C9_size_ordering_witness :
    keyLe (SizeKey.numeric 44) (SizeKey.letter 0) = true ∧
    keyLe (SizeKey.letter 0) (SizeKey.numeric 44) = false :=
  C9_size_ordering.2.1 (SizeKey.numeric 44) (SizeKey.letter 0) (by decide)

/- ### C2: the loader type-inference threshold -/

theorem inferColumn_natTest (n : Nat) (cs : List Val) :
    inferColumn n cs =
      if 10 * (cs.filterMap toNumericVal).length > 8 * n then
        cs.map (fun v => match toNumericVal v with
                         | some q => Val.num q
                         | none => Val.na)
      else cs.map valAsText := by
  unfold inferColumn
  have h : (((cs.filterMap toNumericVal).length : ℚ) > (n : ℚ) * (8 / 10)) ↔
      10 * (cs.filterMap toNumericVal).length > 8 * n := by
    constructor
    · intro hlt
      have hq : ((8 * n : ℕ) : ℚ) < ((10 * (cs.filterMap toNumericVal).length : ℕ) : ℚ) := by
        push_cast
        linarith
      exact_mod_cast hq
    · intro hlt
      have hq : ((8 * n : ℕ) : ℚ) < ((10 * (cs.filterMap toNumericVal).length : ℕ) : ℚ) := by
        exact_mod_cast hlt
      push_cast at hq
      linarith
  exact if_congr h rfl rfl

/-- C2, counterexample: two concrete columns on which the claim fails.  In
the first, 8 of 10 values (all non-missing) parse as numeric — at least 80%
of the non-missing values — yet the loader treats the column as text because
its test is strict (`numeric_count > len * 0.8` fails at exactly 80%).  In
the second, every non-missing value parses as numeric, yet the column is
treated as text because the code divides by the full row count (missing rows
included), not by the non-missing count. -/
theorem C2_counterexample :
    (let colA : List Val := [Val.str "1", Val.str "2", Val.str "3", Val.str "4",
      Val.str "5", Val.str "6", Val.str "7", Val.str "8", Val.str "a", Val.str "b"]
     5 * (colA.filterMap toNumericVal).length ≥
        4 * (colA.filter (fun v => !(v == Val.na))).length ∧
     inferColumn 10 colA = colA.map valAsText ∧
     inferColumn 10 colA ≠ colA.map (fun v => match toNumericVal v with
                                              | some q => Val.num q
                                              | none => Val.na)) ∧
    (let colB : List Val := [Val.str "1", Val.str "2", Val.str "3", Val.str "4",
      Val.str "5", Val.na, Val.na, Val.na, Val.na, Val.na]
     (∀ v ∈ colB, !(v == Val.na) → (toNumericVal v).isSome) ∧
     inferColumn 10 colB = colB.map valAsText ∧
     inferColumn 10 colB ≠ colB.map (fun v => match toNumericVal v with
                                              | some q => Val.num q
                                              | none => Val.na)) := by
  simp only [inferColumn_natTest]
  decide

/-- C2 (amended): for every inferred column, the loader coerces it to numeric
(non-parsing values becoming missing) exactly when the count of values that
parse as numeric strictly exceeds 80% of the full row count — missing values
included in the denominator, and with a strict inequality, not the at-least
comparison over non-missing values that the claim states; otherwise the
column is rendered as text with missing values becoming the empty string. -/
theorem C2_inference_threshold (n : Nat) (cs : List Val) :
    ((((cs.filterMap toNumericVal).length : ℚ) > (n : ℚ) * (8 / 10)) →
      inferColumn n cs = cs.map (fun v => match toNumericVal v with
                                          | some q => Val.num q
                                          | none => Val.na)) ∧
    (¬ (((cs.filterMap toNumericVal).length : ℚ) > (n : ℚ) * (8 / 10)) →
      inferColumn n cs = cs.map valAsText ∧
      ∀ i : Nat, cs[i]? = some Val.na → (inferColumn n cs)[i]? = some (Val.str "")) := by
  constructor
  · intro h
    unfold inferColumn
    rw [if_pos h]
  · intro h
    have hmap : inferColumn n cs = cs.map valAsText := by
      unfold inferColumn
      rw [if_neg h]
    refine ⟨hmap, ?_⟩
    intro i hi
    rw [hmap, List.getElem?_map, hi]
    rfl

/-- C2, witness: a two-row column with one numeric string and one missing
value is rendered as text, the missing value becoming the empty string. -/
theorem C2_inference_threshold_witness :
    inferColumn 10 [Val.str "7", Val.na] = [Val.str "7", Val.str ""] ∧
    (inferColumn 10 [Val.str "7", Val.na])[1]? = some (Val.str "") := by
  have hlen : (([Val.str "7", Val.na].filterMap toNumericVal).length : ℚ) = 1 := by
    have h : ([Val.str "7", Val.na].filterMap toNumericVal).length = 1 := by decide
    rw [h]
    norm_num
  have hcond : ¬ ((([Val.str "7", Val.na].filterMap toNumericVal).length : ℚ) >
      (10 : ℚ) * (8 / 10)) := by
    rw [hlen]
    norm_num
  have h := (C2_inference_threshold 10 [Val.str "7", Val.na]).2 hcond
  refine ⟨?_, h.2 1 (by decide)⟩
  rw [h.1]
  decide

/- ### C8: the returns selection -/

theorem optMapM_length (f : α → Option β) :
    ∀ (l : List α) (r : List β), optMapM f l = some r → r.length = l.length := by
  intro l
  induction l with
  | nil =>
    intro r h
    simp only [optMapM, Option.some.injEq] at h
    simp [← h]
  | cons a t ih =>
    intro r h
    simp only [optMapM, Option.bind_eq_bind] at h
    cases hb : f a with
    | none => rw [hb] at h; simp at h
    | some b =>
      rw [hb] at h
      cases hbs : optMapM f t with
      | none => rw [hbs] at h; simp at h
      | some bs =>
        rw [hbs] at h
        simp only [Option.some_bind, Option.pure_def, Option.some.injEq] at h
        rw [← h]
        simp [ih bs hbs]

theorem optMapM_getElem (f : α → Option β) :
    ∀ (l : List α) (r : List β), optMapM f l = some r →
      ∀ (i : Nat) (x : α), l[i]? = some x → ∃ y, f x = some y ∧ r[i]? = some y := by
  intro l
  induction l with
  | nil => intro r h i x hx; simp at hx
  | cons a t ih =>
    intro r h i x hx
    simp only [optMapM, Option.bind_eq_bind] at h
    cases hb : f a with
    | none => rw [hb] at h; simp at h
    | some b =>
      rw [hb] at h
      cases hbs : optMapM f t with
      | none => rw [hbs] at h; simp at h
      | some bs =>
        rw [hbs] at h
        simp only [Option.some_bind, Option.pure_def, Option.some.injEq] at h
        cases i with
        | zero =>
          simp only [List.getElem?_cons_zero, Option.some.injEq] at hx
          subst hx
          exact ⟨b, hb, by rw [← h]; simp⟩
        | succ i =>
          simp only [List.getElem?_cons_succ] at hx
          rcases ih bs hbs i x hx with ⟨y, hy1, hy2⟩
          exact ⟨y, hy1, by rw [← h]; simpa using hy2⟩

/-- C8: a sales row is selected as a return exactly when its quantity value
is a number that is strictly negative (missing quantities are never
selected), and on the sample quantity column 10, -3, 7, -5 the returns card
reports 2 records and 8 returned units. -/
theorem C8_returns_selection :
    (∀ (cs : List Val) (mask : List Bool), optMapM vLtZero cs = some mask →
      ∀ (i : Nat) (q : ℚ), cs[i]? = some (Val.num q) →
        mask[i]? = some (decide (q < 0))) ∧
    (∀ (cs : List Val) (mask : List Bool), optMapM vLtZero cs = some mask →
      ∀ i : Nat, mask[i]? = some true →
        ∃ q : ℚ, cs[i]? = some (Val.num q) ∧ q < 0) ∧
    create_product_analysis_devol
      [⟨"Cantidad", [Val.num 10, Val.num (-3), Val.num 7, Val.num (-5)]⟩] = some (2, 8) := by
  refine ⟨?_, ?_, ?_⟩
  · intro cs mask hm i q hq
    rcases optMapM_getElem vLtZero cs mask hm i (Val.num q) hq with ⟨y, hy1, hy2⟩
    simp only [vLtZero, Option.some.injEq] at hy1
    rw [← hy1] at hy2
    exact hy2
  · intro cs mask hm i hi
    have hlen : mask.length = cs.length := optMapM_length vLtZero cs mask hm
    have hilt : i < cs.length := by
      rw [← hlen]
      exact List.getElem?_eq_some.mp hi |>.1
    have hx : cs[i]? = some cs[i] := List.getElem?_eq_getElem hilt
    rcases optMapM_getElem vLtZero cs mask hm i cs[i] hx with ⟨y, hy1, hy2⟩
    have hytrue : y = true := by
      rw [hi] at hy2
      exact (Option.some.injEq _ _ ▸ hy2).symm ▸ rfl
    rw [hytrue] at hy1
    cases hc : cs[i] with
    | num q =>
      rw [hc] at hy1 hx
      simp only [vLtZero, Option.some.injEq] at hy1
      exact ⟨q, hx, by simpa using hy1.symm⟩
    | na => rw [hc] at hy1; simp [vLtZero] at hy1
    | str s => rw [hc] at hy1; simp [vLtZero] at hy1
    | bool b => rw [hc] at hy1; simp [vLtZero] at hy1
    | date d => rw [hc] at hy1; simp [vLtZero] at hy1
  · have hmask : optMapM vLtZero (getCol
        [⟨"Cantidad", [Val.num 10, Val.num (-3), Val.num 7, Val.num (-5)]⟩] "Cantidad") =
        some [false, true, false, true] := by decide
    have hdev : filterRows [⟨"Cantidad", [Val.num 10, Val.num (-3), Val.num 7, Val.num (-5)]⟩]
        [false, true, false, true] = [⟨"Cantidad", [Val.num (-3), Val.num (-5)]⟩] := by decide
    have hsum : numCellSum (getCol [⟨"Cantidad", [Val.num (-3), Val.num (-5)]⟩] "Cantidad") = -8 := by
      show numCellSum [Val.num (-3), Val.num (-5)] = -8
      simp [numCellSum]
      norm_num
    have habs : ratAbs (-8) = 8 := by norm_num [ratAbs]
    unfold create_product_analysis_devol
    rw [hmask]
    simp only [hdev, hsum, habs]
    decide

/-- C8, witness: the selection facts instantiated on a two-cell column with
one negative quantity. -/
theorem C8_returns_selection_witness :
    ([false, true] : List Bool)[1]? = some (decide ((-2 : ℚ) < 0)) ∧
    ∃ q : ℚ, ([Val.num 3, Val.num (-2)] : List Val)[1]? = some (Val.num q) ∧ q < 0 := by
  constructor
  · exact C8_returns_selection.1 [Val.num 3, Val.num (-2)] [false, true] (by decide) 1 (-2) (by decide)
  · exact C8_returns_selection.2.1 [Val.num 3, Val.num (-2)] [false, true] (by decide) 1 (by decide)

/- ### Stage-effect lemmas for the sales preprocessor -/

theorem hasCol_setCol_of_has (t : Table) (n : String) (cs : List Val)
    (h : hasCol t n = true) (m : String) :
    hasCol (setCol t n cs) m = hasCol t m := by
  unfold setCol
  rw [if_pos h]
  exact hasCol_replaceCol t n m cs

theorem hasCol_fixDateCol (t : Table) (n m : String) :
    hasCol (fixDateCol t n) m = hasCol t m := by
  unfold fixDateCol
  by_cases h : hasCol t n
  · rw [if_pos h]
    exact hasCol_setCol_of_has t n _ h m
  · rw [if_neg h]

theorem getCol_fixDateCol_ne (t : Table) (n m : String) (hm : m ≠ n) :
    getCol (fixDateCol t n) m = getCol t m := by
  unfold fixDateCol
  by_cases h : hasCol t n
  · rw [if_pos h]
    exact getCol_setCol_ne t n m _ hm
  · rw [if_neg h]

theorem uniform_fixDateCol_ne (t : Table) (n m : String) (cs : List Val)
    (hnm : m ≠ n) (h : Uniform t m cs) : Uniform (fixDateCol t n) m cs := by
  unfold fixDateCol
  by_cases hh : hasCol t n
  · rw [if_pos hh]
    exact uniform_setCol_ne t m n cs _ hnm h
  · rw [if_neg hh]
    exact h

theorem uniform_after_fixDateCol (t : Table) (n : String) (h : hasCol t n = true) :
    Uniform (fixDateCol t n) n ((getCol t n).map toDateCell) := by
  unfold fixDateCol
  rw [if_pos h]
  exact uniform_setCol_self t n _

theorem fixDatesVentas_eq (t : Table) :
    fixDatesVentas t = fixDateCol (fixDateCol t "Fecha Documento") "Fecha" := rfl

theorem hasCol_fixDatesVentas (t : Table) (m : String) :
    hasCol (fixDatesVentas t) m = hasCol t m := by
  rw [fixDatesVentas_eq, hasCol_fixDateCol, hasCol_fixDateCol]

theorem getCol_fixDatesVentas_ne (t : Table) (m : String)
    (h1 : m ≠ "Fecha Documento") (h2 : m ≠ "Fecha") :
    getCol (fixDatesVentas t) m = getCol t m := by
  rw [fixDatesVentas_eq, getCol_fixDateCol_ne _ _ _ h2, getCol_fixDateCol_ne _ _ _ h1]

theorem hasCol_addDateDerived (t : Table) (m : String)
    (h1 : m ≠ "Año") (h2 : m ≠ "Mes") (h3 : m ≠ "Mes_Nombre") :
    hasCol (addDateDerived t) m = hasCol t m := by
  unfold addDateDerived
  by_cases h : hasCol t "Fecha Documento"
  · rw [if_pos h, hasCol_setCol_ne _ _ _ _ h3, hasCol_setCol_ne _ _ _ _ h2,
      hasCol_setCol_ne _ _ _ _ h1]
  · rw [if_neg h]

theorem getCol_addDateDerived_ne (t : Table) (m : String)
    (h1 : m ≠ "Año") (h2 : m ≠ "Mes") (h3 : m ≠ "Mes_Nombre") :
    getCol (addDateDerived t) m = getCol t m := by
  unfold addDateDerived
  by_cases h : hasCol t "Fecha Documento"
  · rw [if_pos h, getCol_setCol_ne _ _ _ _ h3, getCol_setCol_ne _ _ _ _ h2,
      getCol_setCol_ne _ _ _ _ h1]
  · rw [if_neg h]

theorem uniform_addDateDerived_ne (t : Table) (m : String) (cs : List Val)
    (h1 : m ≠ "Año") (h2 : m ≠ "Mes") (h3 : m ≠ "Mes_Nombre")
    (h : Uniform t m cs) : Uniform (addDateDerived t) m cs := by
  unfold addDateDerived
  by_cases hh : hasCol t "Fecha Documento"
  · rw [if_pos hh]
    exact uniform_setCol_ne _ _ _ _ _ h3
      (uniform_setCol_ne _ _ _ _ _ h2 (uniform_setCol_ne _ _ _ _ _ h1 h))
  · rw [if_neg hh]
    exact h

theorem toDateCell_idem (v : Val) : toDateCell (toDateCell v) = toDateCell v := by
  cases v with
  | str s =>
    cases h : parseDateStr s with
    | none => simp [toDateCell, parseDateVal, h]
    | some d => simp [toDateCell, parseDateVal, h]
  | na => rfl
  | num q => rfl
  | bool b => rfl
  | date d => rfl

theorem map_toDateCell_idem (l : List Val) :
    (l.map toDateCell).map toDateCell = l.map toDateCell := by
  rw [List.map_map]
  exact List.map_congr_left (fun a _ => toDateCell_idem a)

theorem fixDateCol_of_uniform_fixed (t : Table) (n : String) (cs : List Val)
    (h : Uniform t n cs) (hfix : cs.map toDateCell = cs) : fixDateCol t n = t := by
  unfold fixDateCol
  rw [if_pos h.1, getCol_of_uniform t n cs h, hfix]
  exact setCol_of_uniform t n cs h

theorem fixDateCol_of_not_hasCol (t : Table) (n : String)
    (h : hasCol t n = false) : fixDateCol t n = t := by
  unfold fixDateCol
  rw [h]
  simp

theorem addEsOnline_some (t u : Table) (h : addEsOnline t = some u) :
    hasCol t "Tienda" = true ∧
    u = setCol t "Es_Online" ((getCol t "Tienda").map isinTiendas) := by
  unfold addEsOnline at h
  by_cases hh : hasCol t "Tienda"
  · rw [if_pos hh] at h
    exact ⟨hh, (Option.some.inj h).symm⟩
  · rw [if_neg hh] at h
    simp at h

theorem addBeneficio_cases (t u : Table) (h : addBeneficio t = some u) :
    (hasCol t "Beneficio" = true ∧ u = t) ∨
    (∃ b, u = setCol t "Beneficio" b) ∨
    (hasCol t "Beneficio" = false ∧
      (hasCol t "P.V.P." && hasCol t "Cantidad" && hasCol t "Precio Coste") = false ∧
      (hasCol t "P.V.P." && hasCol t "Cantidad") = false ∧ u = t) := by
  unfold addBeneficio at h
  by_cases h1 : hasCol t "Beneficio"
  · rw [if_pos h1] at h
    exact Or.inl ⟨h1, (Option.some.inj h).symm⟩
  · rw [if_neg h1] at h
    by_cases h2 : (hasCol t "P.V.P." && hasCol t "Cantidad" && hasCol t "Precio Coste") = true
    · rw [if_pos h2] at h
      refine Or.inr (Or.inl ?_)
      cases hd : colBin (fun x y => x - y) (getCol t "P.V.P.") (getCol t "Precio Coste") with
      | none => rw [hd] at h; simp at h
      | some d =>
        rw [hd] at h
        simp only [Option.bind_eq_bind, Option.some_bind] at h
        cases hb2 : colBin (fun x y => x * y) d (getCol t "Cantidad") with
        | none => rw [hb2] at h; simp at h
        | some b =>
          rw [hb2] at h
          simp only [Option.some_bind, Option.pure_def, Option.some.injEq] at h
          exact ⟨b, h.symm⟩
    · rw [if_neg h2] at h
      by_cases h3 : (hasCol t "P.V.P." && hasCol t "Cantidad") = true
      · rw [if_pos h3] at h
        refine Or.inr (Or.inl ?_)
        cases hm : colBin (fun x y => x * y) (getCol t "P.V.P.") (getCol t "Cantidad") with
        | none => rw [hm] at h; simp at h
        | some m =>
          rw [hm] at h
          simp only [Option.bind_eq_bind, Option.some_bind] at h
          cases hb2 : colScale m (1/2) with
          | none => rw [hb2] at h; simp at h
          | some b =>
            rw [hb2] at h
            simp only [Option.some_bind, Option.pure_def, Option.some.injEq] at h
            exact ⟨b, h.symm⟩
      · rw [if_neg h3] at h
        exact Or.inr (Or.inr ⟨by simpa using h1, by simpa using h2, by simpa using h3,
          (Option.some.inj h).symm⟩)

/- ### Idempotence of the preprocessor body -/

theorem preprocessVentasBody_idem (t u : Table)
    (h : preprocessVentasBody t = some u) : preprocessVentasBody u = some u := by
  unfold preprocessVentasBody at h ⊢
  cases he : addEsOnline (addDateDerived (fixDatesVentas t)) with
  | none =>
    rw [he] at h
    simp at h
  | some t3 =>
    rw [he] at h
    simp only [Option.bind_eq_bind, Option.some_bind] at h
    obtain ⟨hT2, ht3⟩ := addEsOnline_some _ _ he
    have hu := addBeneficio_cases t3 u h
    have hpresH : ∀ m, m ≠ "Beneficio" → hasCol u m = hasCol t3 m := by
      rcases hu with ⟨-, rfl⟩ | ⟨b, rfl⟩ | ⟨-, -, -, rfl⟩
      · intro m _; rfl
      · intro m hm; exact hasCol_setCol_ne t3 "Beneficio" m b hm
      · intro m _; rfl
    have hpresG : ∀ m, m ≠ "Beneficio" → getCol u m = getCol t3 m := by
      rcases hu with ⟨-, rfl⟩ | ⟨b, rfl⟩ | ⟨-, -, -, rfl⟩
      · intro m _; rfl
      · intro m hm; exact getCol_setCol_ne t3 "Beneficio" m b hm
      · intro m _; rfl
    have hpresU : ∀ n cs, n ≠ "Beneficio" → Uniform t3 n cs → Uniform u n cs := by
      rcases hu with ⟨-, rfl⟩ | ⟨b, rfl⟩ | ⟨-, -, -, rfl⟩
      · intro n cs _ hh; exact hh
      · intro n cs hn hh; exact uniform_setCol_ne t3 n "Beneficio" cs b hn hh
      · intro n cs _ hh; exact hh
    have hTu : hasCol u "Tienda" = true := by
      rw [hpresH "Tienda" (by decide), ht3,
        hasCol_setCol_ne _ _ _ _ (by decide : ("Tienda" : String) ≠ "Es_Online")]
      exact hT2
    have hgTu : getCol u "Tienda" = getCol (addDateDerived (fixDatesVentas t)) "Tienda" := by
      rw [hpresG "Tienda" (by decide), ht3,
        getCol_setCol_ne _ _ _ _ (by decide : ("Tienda" : String) ≠ "Es_Online")]
    have hUes : Uniform u "Es_Online"
        ((getCol (addDateDerived (fixDatesVentas t)) "Tienda").map isinTiendas) := by
      apply hpresU _ _ (by decide)
      rw [ht3]
      exact uniform_setCol_self _ _ _
    have hUfd : hasCol t "Fecha Documento" = true →
        Uniform u "Fecha Documento" ((getCol t "Fecha Documento").map toDateCell) := by
      intro hfd
      have hU1 : Uniform (fixDatesVentas t) "Fecha Documento"
          ((getCol t "Fecha Documento").map toDateCell) := by
        rw [fixDatesVentas_eq]
        exact uniform_fixDateCol_ne _ _ _ _
          (by decide : ("Fecha Documento" : String) ≠ "Fecha")
          (uniform_after_fixDateCol t _ hfd)
      have hU2 := uniform_addDateDerived_ne _ _ _ (by decide) (by decide) (by decide) hU1
      have hU3 : Uniform t3 "Fecha Documento" ((getCol t "Fecha Documento").map toDateCell) := by
        rw [ht3]
        exact uniform_setCol_ne _ _ _ _ _ (by decide) hU2
      exact hpresU _ _ (by decide) hU3
    have hNfd : hasCol t "Fecha Documento" = false → hasCol u "Fecha Documento" = false := by
      intro hfd
      rw [hpresH _ (by decide), ht3, hasCol_setCol_ne _ _ _ _ (by decide),
        hasCol_addDateDerived _ _ (by decide) (by decide) (by decide), hasCol_fixDatesVentas]
      exact hfd
    have hUfe : hasCol t "Fecha" = true →
        Uniform u "Fecha" ((getCol (fixDateCol t "Fecha Documento") "Fecha").map toDateCell) := by
      intro hfe
      have hU1 : Uniform (fixDatesVentas t) "Fecha"
          ((getCol (fixDateCol t "Fecha Documento") "Fecha").map toDateCell) := by
        rw [fixDatesVentas_eq]
        exact uniform_after_fixDateCol _ _ (by rw [hasCol_fixDateCol]; exact hfe)
      have hU2 := uniform_addDateDerived_ne _ _ _ (by decide) (by decide) (by decide) hU1
      have hU3 : Uniform t3 "Fecha"
          ((getCol (fixDateCol t "Fecha Documento") "Fecha").map toDateCell) := by
        rw [ht3]
        exact uniform_setCol_ne _ _ _ _ _ (by decide) hU2
      exact hpresU _ _ (by decide) hU3
    have hNfe : hasCol t "Fecha" = false → hasCol u "Fecha" = false := by
      intro hfe
      rw [hpresH _ (by decide), ht3, hasCol_setCol_ne _ _ _ _ (by decide),
        hasCol_addDateDerived _ _ (by decide) (by decide) (by decide), hasCol_fixDatesVentas]
      exact hfe
    have hfixA : fixDateCol u "Fecha Documento" = u := by
      by_cases hfd : hasCol t "Fecha Documento"
      · exact fixDateCol_of_uniform_fixed u _ _ (hUfd hfd) (map_toDateCell_idem _)
      · exact fixDateCol_of_not_hasCol u _ (hNfd (by simpa using hfd))
    have hfixB : fixDateCol u "Fecha" = u := by
      by_cases hfe : hasCol t "Fecha"
      · exact fixDateCol_of_uniform_fixed u _ _ (hUfe hfe) (map_toDateCell_idem _)
      · exact fixDateCol_of_not_hasCol u _ (hNfe (by simpa using hfe))
    have hA : fixDatesVentas u = u := by
      rw [fixDatesVentas_eq, hfixA, hfixB]
    have hB : addDateDerived u = u := by
      by_cases hfd : hasCol t "Fecha Documento"
      · have hfd1 : hasCol (fixDatesVentas t) "Fecha Documento" = true := by
          rw [hasCol_fixDatesVentas]; exact hfd
        have ht2 : addDateDerived (fixDatesVentas t) =
            setCol (setCol (setCol (fixDatesVentas t) "Año"
                ((getCol (fixDatesVentas t) "Fecha Documento").map yearCell))
              "Mes" ((getCol (fixDatesVentas t) "Fecha Documento").map monthCell))
              "Mes_Nombre" ((getCol (fixDatesVentas t) "Fecha Documento").map monthNameCell) := by
          unfold addDateDerived
          rw [if_pos hfd1]
        have hX1 : getCol (fixDatesVentas t) "Fecha Documento" =
            (getCol t "Fecha Documento").map toDateCell := by
          rw [fixDatesVentas_eq]
          rw [getCol_fixDateCol_ne _ _ _ (by decide : ("Fecha Documento" : String) ≠ "Fecha")]
          exact getCol_of_uniform _ _ _ (uniform_after_fixDateCol t _ hfd)
        have hUa : Uniform u "Año"
            ((getCol (fixDatesVentas t) "Fecha Documento").map yearCell) := by
          apply hpresU _ _ (by decide)
          rw [ht3]
          apply uniform_setCol_ne _ _ _ _ _ (by decide)
          rw [ht2]
          exact uniform_setCol_ne _ _ _ _ _ (by decide)
            (uniform_setCol_ne _ _ _ _ _ (by decide) (uniform_setCol_self _ _ _))
        have hUm : Uniform u "Mes"
            ((getCol (fixDatesVentas t) "Fecha Documento").map monthCell) := by
          apply hpresU _ _ (by decide)
          rw [ht3]
          apply uniform_setCol_ne _ _ _ _ _ (by decide)
          rw [ht2]
          exact uniform_setCol_ne _ _ _ _ _ (by decide) (uniform_setCol_self _ _ _)
        have hUmn : Uniform u "Mes_Nombre"
            ((getCol (fixDatesVentas t) "Fecha Documento").map monthNameCell) := by
          apply hpresU _ _ (by decide)
          rw [ht3]
          apply uniform_setCol_ne _ _ _ _ _ (by decide)
          rw [ht2]
          exact uniform_setCol_self _ _ _
        have hfdu : hasCol u "Fecha Documento" = true := (hUfd hfd).1
        have hgufd : getCol u "Fecha Documento" =
            getCol (fixDatesVentas t) "Fecha Documento" := by
          rw [getCol_of_uniform _ _ _ (hUfd hfd), hX1]
        unfold addDateDerived
        rw [if_pos hfdu, hgufd, setCol_of_uniform u "Año" _ hUa,
          setCol_of_uniform u "Mes" _ hUm, setCol_of_uniform u "Mes_Nombre" _ hUmn]
      · have hfdu : hasCol u "Fecha Documento" = false := hNfd (by simpa using hfd)
        unfold addDateDerived
        rw [hfdu]
        simp
    have hC : addEsOnline u = some u := by
      unfold addEsOnline
      rw [if_pos hTu, hgTu, setCol_of_uniform u "Es_Online" _ hUes]
    have hD : addBeneficio u = some u := by
      rcases hu with ⟨hB3, rfl⟩ | ⟨b, rfl⟩ | ⟨hB3, hg2, hg3, rfl⟩
      · unfold addBeneficio
        rw [if_pos hB3]
      · unfold addBeneficio
        rw [if_pos (hasCol_setCol_self t3 "Beneficio" b)]
      · unfold addBeneficio
        rw [if_neg (by simp [hB3] : ¬ hasCol u "Beneficio" = true),
          if_neg (by simp [hg2] : ¬ (hasCol u "P.V.P." && hasCol u "Cantidad" &&
            hasCol u "Precio Coste") = true),
          if_neg (by simp [hg3] : ¬ (hasCol u "P.V.P." && hasCol u "Cantidad") = true)]
    rw [hA, hB, hC]
    simp only [Option.bind_eq_bind, Option.some_bind]
    exact hD

/-- C5: the sales preprocessor is idempotent — applying it to an already
preprocessed table returns that table unchanged, on every input table (empty
input, degraded fallback and successful runs alike). -/
theorem C5_preprocess_idempotent (t : Table) :
    preprocess_ventas_data (preprocess_ventas_data t) = preprocess_ventas_data t := by
  by_cases he : isEmptyT t = true
  · have h1 : preprocess_ventas_data t = t := by
      unfold preprocess_ventas_data
      rw [if_pos he]
    rw [h1, h1]
  · cases hb : preprocessVentasBody t with
    | none =>
      have h1 : preprocess_ventas_data t = t := by
        unfold preprocess_ventas_data
        rw [if_neg he, hb]
        rfl
      rw [h1, h1]
    | some u =>
      have h1 : preprocess_ventas_data t = u := by
        unfold preprocess_ventas_data
        rw [if_neg he, hb]
        rfl
      rw [h1]
      by_cases hue : isEmptyT u = true
      · unfold preprocess_ventas_data
        rw [if_pos hue]
      · unfold preprocess_ventas_data
        rw [if_neg hue, preprocessVentasBody_idem t u hb]
        rfl

/- ### C3: missing prerequisites of the derived columns -/

/-- C3, counterexample: a one-column sales table that has the date column but
no store column.  The prerequisite of the Year column is present, yet the
whole preprocessor degrades to the identity (the unguarded store lookup
raises), so Year is not computed — absence of one prerequisite is not
isolated to its own derived column. -/
theorem C3_counterexample :
    hasCol [⟨"Fecha Documento", [Val.str "01/02/2023"]⟩] "Fecha Documento" = true ∧
    hasCol (preprocess_ventas_data [⟨"Fecha Documento", [Val.str "01/02/2023"]⟩]) "Año" = false ∧
    preprocess_ventas_data [⟨"Fecha Documento", [Val.str "01/02/2023"]⟩] =
      [⟨"Fecha Documento", [Val.str "01/02/2023"]⟩] := by
  refine ⟨rfl, ?_, ?_⟩ <;> decide

/-- C3 (amended): the date-derived columns and the margin column are guarded
by their prerequisites, but the online-flag derivation is not: when the store
column is absent the preprocessor returns the whole input unchanged (no
derived column at all is added); when the store column is present the other
derived columns are indeed computed exactly when their prerequisites exist —
on a nonempty table that already carries a margin column, the online flag is
always added and the Year column is present in the output iff the date column
was present in the input (or a Year column already existed). -/
theorem C3_derived_column_guards :
    (∀ t : Table, hasCol t "Tienda" = false → preprocess_ventas_data t = t) ∧
    (∀ t : Table, isEmptyT t = false → hasCol t "Tienda" = true →
      hasCol t "Beneficio" = true →
      hasCol (preprocess_ventas_data t) "Es_Online" = true ∧
      (hasCol (preprocess_ventas_data t) "Año" = true ↔
        (hasCol t "Fecha Documento" = true ∨ hasCol t "Año" = true))) := by
  constructor
  · intro t h
    unfold preprocess_ventas_data
    by_cases he : isEmptyT t = true
    · rw [if_pos he]
    · rw [if_neg he]
      have hT : hasCol (addDateDerived (fixDatesVentas t)) "Tienda" = false := by
        rw [hasCol_addDateDerived _ _ (by decide) (by decide) (by decide),
          hasCol_fixDatesVentas]
        exact h
      have hbody : preprocessVentasBody t = none := by
        unfold preprocessVentasBody addEsOnline
        rw [hT]
        simp
      rw [hbody]
      rfl
  · intro t he hT hB
    have hT2 : hasCol (addDateDerived (fixDatesVentas t)) "Tienda" = true := by
      rw [hasCol_addDateDerived _ _ (by decide) (by decide) (by decide),
        hasCol_fixDatesVentas]
      exact hT
    have hB3 : hasCol (setCol (addDateDerived (fixDatesVentas t)) "Es_Online"
        ((getCol (addDateDerived (fixDatesVentas t)) "Tienda").map isinTiendas))
        "Beneficio" = true := by
      rw [hasCol_setCol_ne _ _ _ _ (by decide),
        hasCol_addDateDerived _ _ (by decide) (by decide) (by decide),
        hasCol_fixDatesVentas]
      exact hB
    have hbody : preprocessVentasBody t =
        some (setCol (addDateDerived (fixDatesVentas t)) "Es_Online"
          ((getCol (addDateDerived (fixDatesVentas t)) "Tienda").map isinTiendas)) := by
      unfold preprocessVentasBody
      have hEs : addEsOnline (addDateDerived (fixDatesVentas t)) =
          some (setCol (addDateDerived (fixDatesVentas t)) "Es_Online"
            ((getCol (addDateDerived (fixDatesVentas t)) "Tienda").map isinTiendas)) := by
        unfold addEsOnline
        rw [if_pos hT2]
      rw [hEs]
      simp only [Option.bind_eq_bind, Option.some_bind]
      unfold addBeneficio
      rw [if_pos hB3]
    have hpre : preprocess_ventas_data t =
        setCol (addDateDerived (fixDatesVentas t)) "Es_Online"
          ((getCol (addDateDerived (fixDatesVentas t)) "Tienda").map isinTiendas) := by
      unfold preprocess_ventas_data
      rw [if_neg (by simp [he]), hbody]
      rfl
    rw [hpre]
    refine ⟨hasCol_setCol_self _ _ _, ?_⟩
    rw [hasCol_setCol_ne _ _ _ _ (by decide : ("Año" : String) ≠ "Es_Online")]
    by_cases hfd : hasCol (fixDatesVentas t) "Fecha Documento" = true
    · have hfdt : hasCol t "Fecha Documento" = true := by
        rw [← hasCol_fixDatesVentas t]
        exact hfd
      unfold addDateDerived
      rw [if_pos hfd,
        hasCol_setCol_ne _ _ _ _ (by decide : ("Año" : String) ≠ "Mes_Nombre"),
        hasCol_setCol_ne _ _ _ _ (by decide : ("Año" : String) ≠ "Mes"),
        hasCol_setCol_self]
      simp [hfdt]
    · have hfdt : hasCol t "Fecha Documento" = false := by
        rw [← hasCol_fixDatesVentas t]
        simpa using hfd
      unfold addDateDerived
      rw [if_neg hfd, hasCol_fixDatesVentas]
      simp [hfdt]

/-- C3, witness: a date-only sales table (no store column) passes through the
preprocessor unchanged. -/
theorem C3_derived_column_guards_witness :
    preprocess_ventas_data [⟨"Cantidad", [Val.num 1]⟩] = [⟨"Cantidad", [Val.num 1]⟩] :=
  C3_derived_column_guards.1 [⟨"Cantidad", [Val.num 1]⟩] (by decide)

/- ### C6: the margin formulas -/

theorem optMapM_of_forall_isSome (f : α → Option β) :
    ∀ l : List α, (∀ x ∈ l, (f x).isSome) → ∃ r, optMapM f l = some r := by
  intro l
  induction l with
  | nil => exact fun _ => ⟨[], rfl⟩
  | cons a t ih =>
    intro h
    rcases Option.isSome_iff_exists.mp (h a (List.mem_cons_self a t)) with ⟨b, hb⟩
    rcases ih (fun x hx => h x (List.mem_cons_of_mem a hx)) with ⟨r, hr⟩
    exact ⟨b :: r, by simp [optMapM, hb, hr]⟩

theorem optMapM_mem (f : α → Option β) :
    ∀ (l : List α) (r : List β), optMapM f l = some r →
      ∀ y ∈ r, ∃ x ∈ l, f x = some y := by
  intro l
  induction l with
  | nil =>
    intro r h y hy
    simp only [optMapM, Option.some.injEq] at h
    rw [← h] at hy
    simp at hy
  | cons a t ih =>
    intro r h y hy
    simp only [optMapM, Option.bind_eq_bind] at h
    cases hb : f a with
    | none => rw [hb] at h; simp at h
    | some b =>
      rw [hb] at h
      cases hbs : optMapM f t with
      | none => rw [hbs] at h; simp at h
      | some bs =>
        rw [hbs] at h
        simp only [Option.some_bind, Option.pure_def, Option.some.injEq] at h
        rw [← h] at hy
        rcases List.mem_cons.mp hy with rfl | hy
        · exact ⟨a, List.mem_cons_self a t, hb⟩
        · rcases ih bs hbs y hy with ⟨x, hx1, hx2⟩
          exact ⟨x, List.mem_cons_of_mem a hx1, hx2⟩

theorem zip_getElem? (as : List α) (bs : List β) :
    ∀ (i : Nat) (a : α) (b : β), as[i]? = some a → bs[i]? = some b →
      (as.zip bs)[i]? = some (a, b) := by
  induction as generalizing bs with
  | nil => intro i a b ha; simp at ha
  | cons x xs ih =>
    intro i a b ha hb
    cases bs with
    | nil => simp at hb
    | cons y ys =>
      cases i with
      | zero =>
        simp only [List.getElem?_cons_zero, Option.some.injEq] at ha hb
        simp [List.zip_cons_cons, ha, hb]
      | succ i =>
        simp only [List.getElem?_cons_succ] at ha hb
        simp only [List.zip_cons_cons, List.getElem?_cons_succ]
        exact ih ys i a b ha hb

theorem vBin_isSome (f : ℚ → ℚ → ℚ) (a b : Val)
    (ha : (toQ a).isSome) (hb : (toQ b).isSome) : (vBin f a b).isSome := by
  rcases Option.isSome_iff_exists.mp ha with ⟨x, hx⟩
  rcases Option.isSome_iff_exists.mp hb with ⟨y, hy⟩
  simp only [vBin, Option.bind_eq_bind, hx, hy, Option.some_bind]
  cases x <;> cases y <;> simp

theorem vBin_result_toQ (f : ℚ → ℚ → ℚ) (a b y : Val)
    (h : vBin f a b = some y) : (toQ y).isSome := by
  unfold vBin at h
  cases hx : toQ a with
  | none => rw [hx] at h; simp at h
  | some x =>
    rw [hx] at h
    cases hy : toQ b with
    | none => rw [hy] at h; simp at h
    | some z =>
      rw [hy] at h
      simp only [Option.bind_eq_bind, Option.some_bind, Option.pure_def,
        Option.some.injEq] at h
      rw [← h]
      cases x <;> cases z <;> simp [toQ]

theorem colBin_some (f : ℚ → ℚ → ℚ) (as bs : List Val)
    (ha : ∀ v ∈ as, (toQ v).isSome) (hb : ∀ v ∈ bs, (toQ v).isSome) :
    ∃ r, colBin f as bs = some r := by
  apply optMapM_of_forall_isSome
  intro p hp
  have hmem := List.of_mem_zip hp
  exact vBin_isSome f p.1 p.2 (ha _ hmem.1) (hb _ hmem.2)

theorem colBin_mem_toQ (f : ℚ → ℚ → ℚ) (as bs r : List Val)
    (h : colBin f as bs = some r) : ∀ v ∈ r, (toQ v).isSome := by
  intro v hv
  rcases optMapM_mem _ _ _ h v hv with ⟨p, -, hp2⟩
  exact vBin_result_toQ f p.1 p.2 v hp2

theorem colScale_some (m : List Val) (c : ℚ)
    (hm : ∀ v ∈ m, (toQ v).isSome) : ∃ b, colScale m c = some b := by
  apply optMapM_of_forall_isSome
  intro a hav
  exact vBin_isSome _ a (Val.num c) (hm a hav) (by simp [toQ])

theorem hasCol_pre_stages (t : Table) (m : String)
    (h3 : m ≠ "Año") (h4 : m ≠ "Mes") (h5 : m ≠ "Mes_Nombre") (h6 : m ≠ "Es_Online") :
    hasCol (setCol (addDateDerived (fixDatesVentas t)) "Es_Online"
      ((getCol (addDateDerived (fixDatesVentas t)) "Tienda").map isinTiendas)) m =
      hasCol t m := by
  rw [hasCol_setCol_ne _ _ _ _ h6, hasCol_addDateDerived _ _ h3 h4 h5, hasCol_fixDatesVentas]

theorem getCol_pre_stages (t : Table) (m : String)
    (h1 : m ≠ "Fecha Documento") (h2 : m ≠ "Fecha") (h3 : m ≠ "Año") (h4 : m ≠ "Mes")
    (h5 : m ≠ "Mes_Nombre") (h6 : m ≠ "Es_Online") :
    getCol (setCol (addDateDerived (fixDatesVentas t)) "Es_Online"
      ((getCol (addDateDerived (fixDatesVentas t)) "Tienda").map isinTiendas)) m =
      getCol t m := by
  rw [getCol_setCol_ne _ _ _ _ h6, getCol_addDateDerived_ne _ _ h3 h4 h5,
    getCol_fixDatesVentas_ne _ _ h1 h2]

theorem addEsOnline_of_has (t : Table)
    (h : hasCol (addDateDerived (fixDatesVentas t)) "Tienda" = true) :
    addEsOnline (addDateDerived (fixDatesVentas t)) =
      some (setCol (addDateDerived (fixDatesVentas t)) "Es_Online"
        ((getCol (addDateDerived (fixDatesVentas t)) "Tienda").map isinTiendas)) := by
  unfold addEsOnline
  rw [if_pos h]

/-- C6, counterexample: a sales table that has the list-price and quantity
columns, lacks margin and cost, but lacks the store column as well — the
preprocessor degrades to the identity, so no Margin column is added at all,
contradicting the claim as stated over every such table. -/
theorem C6_counterexample :
    hasCol [⟨"P.V.P.", [Val.num 10]⟩, ⟨"Cantidad", [Val.num 2]⟩] "P.V.P." = true ∧
    hasCol [⟨"P.V.P.", [Val.num 10]⟩, ⟨"Cantidad", [Val.num 2]⟩] "Cantidad" = true ∧
    hasCol [⟨"P.V.P.", [Val.num 10]⟩, ⟨"Cantidad", [Val.num 2]⟩] "Beneficio" = false ∧
    hasCol [⟨"P.V.P.", [Val.num 10]⟩, ⟨"Cantidad", [Val.num 2]⟩] "Precio Coste" = false ∧
    hasCol (preprocess_ventas_data
      [⟨"P.V.P.", [Val.num 10]⟩, ⟨"Cantidad", [Val.num 2]⟩]) "Beneficio" = false := by
  refine ⟨rfl, rfl, rfl, rfl, ?_⟩
  decide

/-- C6 (amended): for every nonempty sales table that also carries the store
column (whose absence degrades the preprocessor to the identity) and whose
price, quantity and cost cells are numeric or missing: if the table lacks
Margin and cost price, the preprocessor adds a Margin column with, for every
row, Margin = 0.5 x listPrice x quantity; when the cost-price column is
present, Margin = (listPrice - costPrice) x quantity instead. -/
theorem C6_margin_formulas (t : Table)
    (hne : isEmptyT t = false)
    (hT : hasCol t "Tienda" = true)
    (hB : hasCol t "Beneficio" = false)
    (hP : hasCol t "P.V.P." = true)
    (hC : hasCol t "Cantidad" = true)
    (hnum1 : ∀ v ∈ getCol t "P.V.P.", (toQ v).isSome)
    (hnum2 : ∀ v ∈ getCol t "Cantidad", (toQ v).isSome) :
    (hasCol t "Precio Coste" = false →
      hasCol (preprocess_ventas_data t) "Beneficio" = true ∧
      ∀ (i : Nat) (p q : ℚ), (getCol t "P.V.P.")[i]? = some (Val.num p) →
        (getCol t "Cantidad")[i]? = some (Val.num q) →
        (getCol (preprocess_ventas_data t) "Beneficio")[i]? =
          some (Val.num ((1/2) * (p * q)))) ∧
    (hasCol t "Precio Coste" = true →
      (∀ v ∈ getCol t "Precio Coste", (toQ v).isSome) →
      hasCol (preprocess_ventas_data t) "Beneficio" = true ∧
      ∀ (i : Nat) (p c q : ℚ), (getCol t "P.V.P.")[i]? = some (Val.num p) →
        (getCol t "Precio Coste")[i]? = some (Val.num c) →
        (getCol t "Cantidad")[i]? = some (Val.num q) →
        (getCol (preprocess_ventas_data t) "Beneficio")[i]? =
          some (Val.num ((p - c) * q))) := by
  have hT2 : hasCol (addDateDerived (fixDatesVentas t)) "Tienda" = true := by
    rw [hasCol_addDateDerived _ _ (by decide) (by decide) (by decide), hasCol_fixDatesVentas]
    exact hT
  have hB3 : hasCol (setCol (addDateDerived (fixDatesVentas t)) "Es_Online"
      ((getCol (addDateDerived (fixDatesVentas t)) "Tienda").map isinTiendas))
      "Beneficio" = false := by
    rw [hasCol_pre_stages t _ (by decide) (by decide) (by decide) (by decide)]
    exact hB
  have hP3 : hasCol (setCol (addDateDerived (fixDatesVentas t)) "Es_Online"
      ((getCol (addDateDerived (fixDatesVentas t)) "Tienda").map isinTiendas))
      "P.V.P." = true := by
    rw [hasCol_pre_stages t _ (by decide) (by decide) (by decide) (by decide)]
    exact hP
  have hC3 : hasCol (setCol (addDateDerived (fixDatesVentas t)) "Es_Online"
      ((getCol (addDateDerived (fixDatesVentas t)) "Tienda").map isinTiendas))
      "Cantidad" = true := by
    rw [hasCol_pre_stages t _ (by decide) (by decide) (by decide) (by decide)]
    exact hC
  have hgP : getCol (setCol (addDateDerived (fixDatesVentas t)) "Es_Online"
      ((getCol (addDateDerived (fixDatesVentas t)) "Tienda").map isinTiendas))
      "P.V.P." = getCol t "P.V.P." :=
    getCol_pre_stages t _ (by decide) (by decide) (by decide) (by decide) (by decide) (by decide)
  have hgC : getCol (setCol (addDateDerived (fixDatesVentas t)) "Es_Online"
      ((getCol (addDateDerived (fixDatesVentas t)) "Tienda").map isinTiendas))
      "Cantidad" = getCol t "Cantidad" :=
    getCol_pre_stages t _ (by decide) (by decide) (by decide) (by decide) (by decide) (by decide)
  have hPC3 : hasCol (setCol (addDateDerived (fixDatesVentas t)) "Es_Online"
      ((getCol (addDateDerived (fixDatesVentas t)) "Tienda").map isinTiendas))
      "Precio Coste" = hasCol t "Precio Coste" :=
    hasCol_pre_stages t _ (by decide) (by decide) (by decide) (by decide)
  have hgPC : getCol (setCol (addDateDerived (fixDatesVentas t)) "Es_Online"
      ((getCol (addDateDerived (fixDatesVentas t)) "Tienda").map isinTiendas))
      "Precio Coste" = getCol t "Precio Coste" :=
    getCol_pre_stages t _ (by decide) (by decide) (by decide) (by decide) (by decide) (by decide)
  constructor
  · intro hnoPC
    obtain ⟨m, hm⟩ := colBin_some (fun x y => x * y) (getCol t "P.V.P.") (getCol t "Cantidad")
      hnum1 hnum2
    obtain ⟨b, hb⟩ := colScale_some m (1/2) (colBin_mem_toQ _ _ _ _ hm)
    have haddB : addBeneficio (setCol (addDateDerived (fixDatesVentas t)) "Es_Online"
        ((getCol (addDateDerived (fixDatesVentas t)) "Tienda").map isinTiendas)) =
        some (setCol (setCol (addDateDerived (fixDatesVentas t)) "Es_Online"
          ((getCol (addDateDerived (fixDatesVentas t)) "Tienda").map isinTiendas))
          "Beneficio" b) := by
      unfold addBeneficio
      rw [if_neg (by simp [hB3]), if_neg (by simp [hPC3, hnoPC]),
        if_pos (by simp [hP3, hC3]), hgP, hgC, hm]
      simp only [Option.bind_eq_bind, Option.some_bind]
      rw [hb]
      simp
    have hpre : preprocess_ventas_data t =
        setCol (setCol (addDateDerived (fixDatesVentas t)) "Es_Online"
          ((getCol (addDateDerived (fixDatesVentas t)) "Tienda").map isinTiendas))
          "Beneficio" b := by
      unfold preprocess_ventas_data
      rw [if_neg (by simp [hne])]
      unfold preprocessVentasBody
      rw [addEsOnline_of_has t hT2]
      simp only [Option.bind_eq_bind, Option.some_bind]
      rw [haddB]
      rfl
    refine ⟨by rw [hpre]; exact hasCol_setCol_self _ _ _, ?_⟩
    intro i p q hp hq
    rw [hpre, getCol_setCol_self]
    have hzip := zip_getElem? (getCol t "P.V.P.") (getCol t "Cantidad") i _ _ hp hq
    obtain ⟨y, hy1, hy2⟩ := optMapM_getElem _ _ _ hm i (Val.num p, Val.num q) hzip
    have hyval : vBin (fun x y => x * y) (Val.num p) (Val.num q) =
        some (Val.num (p * q)) := rfl
    rw [hyval] at hy1
    rw [← Option.some.inj hy1] at hy2
    obtain ⟨z, hz1, hz2⟩ := optMapM_getElem _ m b hb i (Val.num (p * q)) hy2
    have hzval : vBin (fun x y => x * y) (Val.num (p * q)) (Val.num (1/2)) =
        some (Val.num ((p * q) * (1/2))) := rfl
    rw [hzval] at hz1
    rw [← Option.some.inj hz1] at hz2
    rw [mul_comm (p * q) (1/2)] at hz2
    exact hz2
  · intro hPC hnum3
    obtain ⟨d, hd⟩ := colBin_some (fun x y => x - y) (getCol t "P.V.P.")
      (getCol t "Precio Coste") hnum1 hnum3
    obtain ⟨b, hb⟩ := colBin_some (fun x y => x * y) d (getCol t "Cantidad")
      (colBin_mem_toQ _ _ _ _ hd) hnum2
    have haddB : addBeneficio (setCol (addDateDerived (fixDatesVentas t)) "Es_Online"
        ((getCol (addDateDerived (fixDatesVentas t)) "Tienda").map isinTiendas)) =
        some (setCol (setCol (addDateDerived (fixDatesVentas t)) "Es_Online"
          ((getCol (addDateDerived (fixDatesVentas t)) "Tienda").map isinTiendas))
          "Beneficio" b) := by
      unfold addBeneficio
      rw [if_neg (by simp [hB3]), if_pos (by simp [hP3, hC3, hPC3, hPC]),
        hgP, hgC, hgPC, hd]
      simp only [Option.bind_eq_bind, Option.some_bind]
      rw [hb]
      simp
    have hpre : preprocess_ventas_data t =
        setCol (setCol (addDateDerived (fixDatesVentas t)) "Es_Online"
          ((getCol (addDateDerived (fixDatesVentas t)) "Tienda").map isinTiendas))
          "Beneficio" b := by
      unfold preprocess_ventas_data
      rw [if_neg (by simp [hne])]
      unfold preprocessVentasBody
      rw [addEsOnline_of_has t hT2]
      simp only [Option.bind_eq_bind, Option.some_bind]
      rw [haddB]
      rfl
    refine ⟨by rw [hpre]; exact hasCol_setCol_self _ _ _, ?_⟩
    intro i p c q hp hc hq
    rw [hpre, getCol_setCol_self]
    have hzip1 := zip_getElem? (getCol t "P.V.P.") (getCol t "Precio Coste") i _ _ hp hc
    obtain ⟨y, hy1, hy2⟩ := optMapM_getElem _ _ _ hd i (Val.num p, Val.num c) hzip1
    have hyval : vBin (fun x y => x - y) (Val.num p) (Val.num c) =
        some (Val.num (p - c)) := rfl
    rw [hyval] at hy1
    rw [← Option.some.inj hy1] at hy2
    have hzip2 := zip_getElem? d (getCol t "Cantidad") i _ _ hy2 hq
    obtain ⟨z, hz1, hz2⟩ := optMapM_getElem _ _ _ hb i (Val.num (p - c), Val.num q) hzip2
    have hzval : vBin (fun x y => x * y) (Val.num (p - c)) (Val.num q) =
        some (Val.num ((p - c) * q)) := rfl
    rw [hzval] at hz1
    rw [← Option.some.inj hz1] at hz2
    exact hz2

/-- C6, witness: on a one-row table with price 10 and quantity 2 (store
present, no cost), the derived margin cell is 0.5 x 10 x 2. -/
theorem C6_margin_formulas_witness :
    (getCol (preprocess_ventas_data [⟨"Tienda", [Val.str "X"]⟩, ⟨"P.V.P.", [Val.num 10]⟩,
      ⟨"Cantidad", [Val.num 2]⟩]) "Beneficio")[0]? = some (Val.num ((1/2) * (10 * 2))) :=
  ((C6_margin_formulas [⟨"Tienda", [Val.str "X"]⟩, ⟨"P.V.P.", [Val.num 10]⟩,
      ⟨"Cantidad", [Val.num 2]⟩] rfl rfl rfl rfl rfl
    (by decide) (by decide)).1 rfl).2 0 10 2 rfl rfl

/- ### C10: the cost join happens after the margin derivation -/

theorem hasCol_map_keepname (t : Table) (f : Col → List Val) (n : String) :
    hasCol (t.map (fun c => ⟨c.name, f c⟩)) n = hasCol t n := by
  induction t with
  | nil => rfl
  | cons c t ih => simp [hasCol, ih]

theorem getCol_map_keepname (t : Table) (f : Col → List Val) (n : String)
    (h : hasCol t n = true) :
    ∃ c₀ : Col, c₀ ∈ t ∧ c₀.name = n ∧ getCol t n = c₀.cells ∧
      getCol (t.map (fun c => ⟨c.name, f c⟩)) n = f c₀ := by
  induction t with
  | nil => simp [hasCol] at h
  | cons c t ih =>
    by_cases hc : c.name == n
    · exact ⟨c, List.mem_cons_self c t, by simpa using hc,
        by simp [getCol, hc], by simp [getCol, hc]⟩
    · simp only [hasCol, hc, Bool.false_or] at h
      rcases ih h with ⟨c₀, hm, hn, hg1, hg2⟩
      exact ⟨c₀, List.mem_cons_of_mem c hm, hn,
        by simp [getCol, hc, hg1], by simp [getCol, hc, hg2]⟩

theorem getCol_dropColT_ne (t : Table) (n m : String) (h : m ≠ n) :
    getCol (dropColT t n) m = getCol t m := by
  induction t with
  | nil => rfl
  | cons c t ih =>
    unfold dropColT at ih ⊢
    by_cases hc : c.name == n
    · have hcm : (c.name == m) = false := by
        have : c.name = n := by simpa using hc
        rw [this]
        simp only [beq_eq_false_iff_ne, ne_eq]
        exact fun hh => h hh.symm
      simp only [List.filter_cons, hc, Bool.not_true, Bool.false_eq_true, if_false]
      rw [ih]
      simp [getCol, hcm]
    · simp only [List.filter_cons, hc, Bool.not_false, if_true]
      by_cases hcm : c.name == m
      · simp [getCol, hcm]
      · simp [getCol, hcm, ih]

theorem mergeCost_getCol_sales (v p : Table) (n : String)
    (hhas : hasCol v n = true) :
    getCol (mergeCostProducto v p) n =
      (matchPairs (getCol v "Código único") (getCol p "Código único")).map
        (fun ij => (getCol v n).getD ij.1 Val.na) := by
  unfold mergeCostProducto
  rw [getCol_append]
  rw [hasCol_map_keepname v _ n]
  rw [if_pos hhas]
  rcases getCol_map_keepname v
    (fun c => (matchPairs (getCol v "Código único") (getCol p "Código único")).map
      (fun ij => c.cells.getD ij.1 Val.na)) n hhas with ⟨c₀, -, -, hg1, hg2⟩
  rw [hg2, hg1]

theorem C10_margin_before_cost_join (dfP dfV : Table)
    (h1 : hasCol (preprocess_ventas_data dfV) "Código único" = true)
    (h2 : hasCol (preprocess_productos_data dfP) "Código único" = true)
    (h3 : hasCol (preprocess_productos_data dfP) "Precio Coste" = true)
    (h4 : hasCol dfV "Beneficio" = false)
    (h5 : hasCol (preprocess_ventas_data dfV) "Beneficio" = true)
    (h6 : hasCol (preprocess_ventas_data dfV) "Precio Coste_producto" = false) :
    ∃ out, create_dashboard_content_data dfP dfV = some out ∧
      getCol out "Beneficio" =
        (matchPairs (getCol (preprocess_ventas_data dfV) "Código único")
          (getCol (preprocess_productos_data dfP) "Código único")).map
          (fun ij => (getCol (preprocess_ventas_data dfV) "Beneficio").getD ij.1 Val.na) ∧
      (hasCol (preprocess_ventas_data dfV) "Precio Coste" = true →
        getCol out "Precio Coste" =
          combineFirst
            ((matchPairs (getCol (preprocess_ventas_data dfV) "Código único")
              (getCol (preprocess_productos_data dfP) "Código único")).map (fun ij =>
                match ij.2 with
                | some j => (getCol (preprocess_productos_data dfP) "Precio Coste").getD j Val.na
                | none => Val.na))
            ((matchPairs (getCol (preprocess_ventas_data dfV) "Código único")
              (getCol (preprocess_productos_data dfP) "Código único")).map
              (fun ij => (getCol (preprocess_ventas_data dfV) "Precio Coste").getD ij.1 Val.na))) := by
  have hBmerge : getCol (mergeCostProducto (preprocess_ventas_data dfV)
      (preprocess_productos_data dfP)) "Beneficio" =
      (matchPairs (getCol (preprocess_ventas_data dfV) "Código único")
        (getCol (preprocess_productos_data dfP) "Código único")).map
        (fun ij => (getCol (preprocess_ventas_data dfV) "Beneficio").getD ij.1 Val.na) :=
    mergeCost_getCol_sales _ _ _ h5
  unfold create_dashboard_content_data
  rw [if_pos (by rw [h1, h2]; rfl), if_pos h3]
  by_cases hvpc : hasCol (preprocess_ventas_data dfV) "Precio Coste" = true
  · have hms : hasCol (mergeCostProducto (preprocess_ventas_data dfV)
        (preprocess_productos_data dfP)) "Precio Coste_producto" = true := by
      unfold mergeCostProducto
      rw [hasCol_append, hasCol_map_keepname, if_pos hvpc]
      simp [hasCol]
    rw [if_pos hms]
    refine ⟨_, rfl, ?_, ?_⟩
    · rw [getCol_dropColT_ne _ _ _ (by decide),
        getCol_setCol_ne _ _ _ _ (by decide), hBmerge]
    · intro _
      rw [getCol_dropColT_ne _ _ _ (by decide), getCol_setCol_self]
      have hsufcol : getCol (mergeCostProducto (preprocess_ventas_data dfV)
          (preprocess_productos_data dfP)) "Precio Coste_producto" =
          (matchPairs (getCol (preprocess_ventas_data dfV) "Código único")
            (getCol (preprocess_productos_data dfP) "Código único")).map (fun ij =>
              match ij.2 with
              | some j => (getCol (preprocess_productos_data dfP) "Precio Coste").getD j Val.na
              | none => Val.na) := by
        unfold mergeCostProducto
        rw [getCol_append, hasCol_map_keepname, h6]
        simp only [Bool.false_eq_true, if_false]
        rw [if_pos hvpc]
        simp [getCol]
      have hpccol : getCol (mergeCostProducto (preprocess_ventas_data dfV)
          (preprocess_productos_data dfP)) "Precio Coste" =
          (matchPairs (getCol (preprocess_ventas_data dfV) "Código único")
            (getCol (preprocess_productos_data dfP) "Código único")).map
            (fun ij => (getCol (preprocess_ventas_data dfV) "Precio Coste").getD ij.1 Val.na) :=
        mergeCost_getCol_sales _ _ _ hvpc
      rw [hsufcol, hpccol]
  · have hms : hasCol (mergeCostProducto (preprocess_ventas_data dfV)
        (preprocess_productos_data dfP)) "Precio Coste_producto" = false := by
      unfold mergeCostProducto
      rw [hasCol_append, hasCol_map_keepname,
        if_neg (by simpa using hvpc)]
      simp [hasCol, h6]
    rw [if_neg (by simp [hms])]
    refine ⟨_, rfl, hBmerge, ?_⟩
    intro hcontra
    exact absurd hcontra hvpc

/-- C10, witness: a one-row sales table whose margin was derived by the
preprocessor keeps that margin unchanged through the product-cost join, while
the joined cost overwrites the cost column. -/
theorem C10_margin_before_cost_join_witness :
    ∃ out, create_dashboard_content_data
        [⟨"Código único", [Val.str "A"]⟩, ⟨"Precio Coste", [Val.num 3]⟩]
        [⟨"Tienda", [Val.str "X"]⟩, ⟨"Código único", [Val.str "A"]⟩,
         ⟨"P.V.P.", [Val.num 10]⟩, ⟨"Cantidad", [Val.num 2]⟩] = some out ∧
      getCol out "Beneficio" =
        (matchPairs (getCol (preprocess_ventas_data
            [⟨"Tienda", [Val.str "X"]⟩, ⟨"Código único", [Val.str "A"]⟩,
             ⟨"P.V.P.", [Val.num 10]⟩, ⟨"Cantidad", [Val.num 2]⟩]) "Código único")
          (getCol (preprocess_productos_data
            [⟨"Código único", [Val.str "A"]⟩, ⟨"Precio Coste", [Val.num 3]⟩]) "Código único")).map
          (fun ij => (getCol (preprocess_ventas_data
            [⟨"Tienda", [Val.str "X"]⟩, ⟨"Código único", [Val.str "A"]⟩,
             ⟨"P.V.P.", [Val.num 10]⟩, ⟨"Cantidad", [Val.num 2]⟩]) "Beneficio").getD ij.1 Val.na) := by
  rcases C10_margin_before_cost_join
      [⟨"Código único", [Val.str "A"]⟩, ⟨"Precio Coste", [Val.num 3]⟩]
      [⟨"Tienda", [Val.str "X"]⟩, ⟨"Código único", [Val.str "A"]⟩,
       ⟨"P.V.P.", [Val.num 10]⟩, ⟨"Cantidad", [Val.num 2]⟩]
      (by decide) (by decide) (by decide) (by decide) (by decide) (by decide)
    with ⟨out, hout, hbene, -⟩
  exact ⟨out, hout, hbene⟩
